import Mathlib

/-!
Verification development for the NDL nuclear-data-library processing module
(`NDL/ProcessNDL.py`).  The Python functions relevant to the checked claims are
shallowly embedded below: pure string/number manipulation becomes Lean
functions over `List Char`, `ℤ` and `ℚ`; the stateful artifact-routing code
(`move_and_clean`) becomes explicit state passing over a set of file paths;
fallible code returns `Except`/`Option`.  Python exceptions that a function can
raise are represented by explicit error constructors.
-/

namespace NDL

/-! ### Python string/number primitives used by the module -/

/-- Whitespace characters recognised by Python `str.split()` / `float()` /
`int()` (space, tab, newline, carriage return, form feed, vertical tab). -/
def isPyWs (c : Char) : Bool :=
  c = ' ' || c = '\t' || c = '\n' || c = '\r' || c = '\x0c' || c = '\x0b'

/-- Value of a list of decimal digit characters (most significant first). -/
def digitsToNat (ds : List Char) : ℕ :=
  ds.foldl (fun a c => 10 * a + (c.toNat - 48)) 0

/-- Python `str.split(sep)` for a one-character separator: splits on every
occurrence and keeps empty pieces, `"a+".split("+") == ["a", ""]`. -/
def splitOnChar (sep : Char) : List Char → List (List Char)
  | [] => [[]]
  | c :: r =>
    if c = sep then [] :: splitOnChar sep r
    else
      match splitOnChar sep r with
      | [] => [[c]]
      | h :: t => (c :: h) :: t

/-- One step of the whitespace grouping used by `pysplit`. -/
def wsSplitStep (c : Char) (acc : List (List Char)) : List (List Char) :=
  if isPyWs c then [] :: acc
  else
    match acc with
    | [] => [[c]]
    | h :: t => (c :: h) :: t

/-- Python `str.split()` with no argument: split on runs of whitespace and
drop empty pieces. -/
def pysplit (l : List Char) : List (List Char) :=
  (l.foldr wsSplitStep []).filter (· ≠ [])

/-- The exact value of a parsed Python float literal, kept un-normalised as
`mant · 10 ^ exp`.  The module only ever compares a parsed float with `0`
(equivalent to comparing `mant` with `0`) or truncates it to an integer, so
this exact decimal representation produces the same observable results as the
binary float. -/
structure PyFloat where
  mant : ℤ
  exp : ℤ
deriving DecidableEq

/-- The represented value `mant · 10 ^ exp` is strictly positive iff the
mantissa is. -/
def PyFloat.pos (x : PyFloat) : Prop := 0 < x.mant

/-- Python `float(s)` on a decimal/scientific literal: optional surrounding
whitespace, optional sign, digits with an optional fractional part, optional
`e`/`E` exponent with optional sign. -/
def pyfloat (s0 : List Char) : Option PyFloat :=
  let s1 := (((s0.dropWhile isPyWs).reverse).dropWhile isPyWs).reverse
  let sgns : ℤ × List Char :=
    match s1 with
    | '+' :: r => (1, r)
    | '-' :: r => (-1, r)
    | r => (1, r)
  let sgn := sgns.1
  let s2 := sgns.2
  let ipart := s2.takeWhile Char.isDigit
  let s3 := s2.dropWhile Char.isDigit
  let fparts : List Char × List Char :=
    match s3 with
    | '.' :: r => (r.takeWhile Char.isDigit, r.dropWhile Char.isDigit)
    | r => ([], r)
  let fpart := fparts.1
  let s4 := fparts.2
  if ipart.isEmpty && fpart.isEmpty then none
  else
    let mant : ℤ := sgn * ((digitsToNat ipart : ℤ) * 10 ^ fpart.length
        + (digitsToNat fpart : ℤ))
    match s4 with
    | [] => some ⟨mant, -(fpart.length : ℤ)⟩
    | c :: r =>
      if c = 'e' || c = 'E' then
        let esgns : ℤ × List Char :=
          match r with
          | '+' :: r2 => (1, r2)
          | '-' :: r2 => (-1, r2)
          | r2 => (1, r2)
        let epart := esgns.2.takeWhile Char.isDigit
        if epart.isEmpty || !(esgns.2.dropWhile Char.isDigit).isEmpty then none
        else some ⟨mant, esgns.1 * (digitsToNat epart : ℤ) - (fpart.length : ℤ)⟩
      else none

/-- Python `int(s)` on a string: optional surrounding whitespace, optional
sign, then decimal digits only. -/
def pyint (s0 : List Char) : Option ℤ :=
  let s1 := (((s0.dropWhile isPyWs).reverse).dropWhile isPyWs).reverse
  let sgns : ℤ × List Char :=
    match s1 with
    | '+' :: r => (1, r)
    | '-' :: r => (-1, r)
    | r => (1, r)
  if sgns.2.isEmpty || !(sgns.2.all Char.isDigit) then none
  else some (sgns.1 * (digitsToNat sgns.2 : ℤ))

/-- Python `int(x)` on a float `mant · 10 ^ exp`: truncation toward zero
(exact multiplication for a non-negative exponent, truncating division
otherwise). -/
def pytrunc (x : PyFloat) : ℤ :=
  if 0 ≤ x.exp then x.mant * 10 ^ x.exp.toNat
  else Int.tdiv x.mant (10 ^ (-x.exp).toNat)

/-! ### `parseENDF6` (ProcessNDL.py lines 1252-1321)

A file is a list of lines; a line is a list of characters (the trailing
newline of a Python file line only feeds the whitespace splitter, so lines may
be given with or without it). -/

/-- A line of an evaluation file. -/
abbrev ELine := List Char

/-- `line[71:75]`, the ENDF-6 record tag columns. -/
def tagOf (l : ELine) : List Char := (l.drop 71).take 4

/-- `line[66:70]`, the MAT (catalog index) columns. -/
def matOf (l : ELine) : List Char := (l.drop 66).take 4

/-- `line[0:11]`, the first fixed-format number field. -/
def first11 (l : ELine) : List Char := l.take 11

/-- The marker tag `"1451"` of the header record. -/
def marker1451 : List Char := ['1', '4', '5', '1']

/-- The exceptions `parseENDF6` can raise.  `identityConflict` is the single
explicit `raise ValueError("Exitation energy > 0 for non-isomeric state...")`
in the function; the other three are interpreter-level exceptions
(conversion failures, list indexing, and reading a local name that was never
assigned because no `1451` record was found). -/
inductive PErr where
  | identityConflict
  | valueError
  | indexError
  | unboundLocal
deriving DecidableEq

deriving instance DecidableEq for Except

/-- Whether an error is the one explicitly raised (and hence defined/intended)
by `parseENDF6`, as opposed to an accidental interpreter-level crash. -/
def PErr.isExplicitRaise : PErr → Bool
  | .identityConflict => true
  | _ => false

/-- The tuple `(str(ZA), MAT, natflag, iso)` returned by `parseENDF6`. -/
structure ENDFId where
  ZA : String
  MAT : String
  natflag : ℕ
  iso : ℕ
deriving DecidableEq

/-- Decoding of the combined Z·1000+A field `line[0:11]`: drop `e`/`E`,
split on `+` (falling back to `.`), rebuild `float(p0 + "E+" + p1)` and
truncate to an integer — exactly the steps of lines 1268-1277. -/
def decodeZA (l : ELine) : Except PErr ℤ :=
  let f := (first11 l).filter (fun c => !(c = 'e' || c = 'E'))
  let parts0 := splitOnChar '+' f
  let parts := if parts0.length = 1 then splitOnChar '.' f else parts0
  match parts[0]?, parts[1]? with
  | some p0, some p1 =>
    match pyfloat (p0 ++ ('E' :: '+' :: p1)) with
    | some q => .ok (pytrunc q)
    | none => .error .valueError
  | _, _ => .error .indexError

/-- `t.replace('+', 'E+')` on the excitation-energy token. -/
def plusToE (t : List Char) : List Char :=
  (t.map (fun c => if c = '+' then ['E', '+'] else [c])).flatten

/-- Processing of the record immediately after the first marker record
(lines 1290-1316): parse the excitation energy (token 0) and the isomer-state
ordinal (token 3), raise on the energy/isomer inconsistency, otherwise select
the isomer multiplier from the mass number `A` captured at the marker
record. -/
def parse_line2 (l : ELine) (A : ℤ) : Except PErr ℕ :=
  match (pysplit l)[0]? with
  | none => .error .indexError
  | some t0 =>
    match pyfloat (plusToE t0) with
    | none => .error .valueError
    | some ext_en =>
      match (pysplit l)[3]? with
      | none => .error .indexError
      | some t3 =>
        match pyint t3 with
        | none => .error .valueError
        | some iso_st =>
          if 0 < ext_en.mant ∧ iso_st = 0 then .error .identityConflict
          else if 0 < iso_st then
            .ok (if 200 < A then 1 else if 100 < A then 2 else 3)
          else .ok 0

/-- The `for iline, line in enumerate(f)` loop of `parseENDF6`, with the
loop-carried state made explicit: the running line index, `linepos`
(initially `-10`), and the locals `(ZA, MAT, natflag, A)` assigned at the
first marker record (`none` while unassigned).  Falling off the end of the
loop without a `break` is `.ok none`. -/
def parseENDF6_go : List ELine → ℕ → ℤ → Option (ℤ × String × ℕ × ℤ) →
    Except PErr (Option ENDFId)
  | [], _, _, _ => .ok none
  | l :: rest, i, linepos, st =>
    if tagOf l = marker1451 ∧ linepos = -10 then
      match decodeZA l with
      | .error e => .error e
      | .ok za =>
        let Z : ℤ := Int.tdiv za 1000
        let A : ℤ := za - Z * 1000
        let natflag : ℕ := if A = 0 then 1 else 0
        parseENDF6_go rest (i + 1) (i : ℤ) (some (za, String.mk (matOf l), natflag, A))
    else if (i : ℤ) = linepos + 1 then
      match st with
      | none => .error .unboundLocal
      | some (za, mat, natflag, A) =>
        match parse_line2 l A with
        | .error e => .error e
        | .ok iso => .ok (some ⟨toString za, mat, natflag, iso⟩)
    else
      parseENDF6_go rest (i + 1) linepos st

/-- `parseENDF6` on the file's lines: run the loop; if it finishes without
having broken out at a post-marker record, the final
`return str(ZA), MAT, natflag, iso` reads locals that were never assigned and
the interpreter raises `UnboundLocalError`. -/
def parseENDF6 (lines : List ELine) : Except PErr ENDFId :=
  match parseENDF6_go lines 0 (-10) none with
  | .error e => .error e
  | .ok (some r) => .ok r
  | .ok none => .error .unboundLocal

/-! ### The periodic tables (ProcessNDL.py lines 1222-1249 and 1324-1351) -/

/-- The 118 atomic symbols, in atomic-number order (shared by both table
builders). -/
def AS_list : List String :=
  ["H", "He", "Li", "Be", "B", "C", "N", "O", "F", "Ne", "Na", "Mg",
   "Al", "Si", "P", "S", "Cl", "Ar", "K", "Ca", "Sc", "Ti", "V", "Cr",
   "Mn", "Fe", "Co", "Ni", "Cu", "Zn", "Ga", "Ge", "As", "Se", "Br",
   "Kr", "Rb", "Sr", "Y", "Zr", "Nb", "Mo", "Tc", "Ru", "Rh", "Pd",
   "Ag", "Cd", "In", "Sn", "Sb", "Te", "I", "Xe", "Cs", "Ba", "La",
   "Ce", "Pr", "Nd", "Pm", "Sm", "Eu", "Gd", "Tb", "Dy", "Ho", "Er",
   "Tm", "Yb", "Lu", "Hf", "Ta", "W", "Re", "Os", "Ir", "Pt", "Au",
   "Hg", "Tl", "Pb", "Bi", "Po", "At", "Rn", "Fr", "Ra", "Ac", "Th",
   "Pa", "U", "Np", "Pu", "Am", "Cm", "Bk", "Cf", "Es", "Fm", "Md",
   "No", "Lr", "Rf", "Db", "Sg", "Bh", "Hs", "Mt", "Ds", "Rg", "Cn",
   "Nh", "Fl", "Mc", "Lv", "Ts", "Og"]

/-- `ASZ_periodic_table()`: `dict(zip(AS, np.arange(1, 119)))` as an
association list from symbol to atomic number. -/
def ASZ_periodic_table : List (String × ℕ) := AS_list.zip (List.range' 1 118)

/-- `ZAS_periodic_table()`: `dict(zip(np.arange(1, 119), AS))` as an
association list from atomic number to symbol. -/
def ZAS_periodic_table : List (ℕ × String) := (List.range' 1 118).zip AS_list

/-- Dictionary lookup in the symbol→Z table. -/
def ASZ_lookup (s : String) : Option ℕ := List.lookup s ASZ_periodic_table

/-- Dictionary lookup in the Z→symbol table. -/
def ZAS_lookup (z : ℕ) : Option String := List.lookup z ZAS_periodic_table

/-! ### `run_njoy` stream classification (lines 587-599) and the ledger
dispatch of `par_ace_lib` (lines 270-278) -/

/-- The literal consistency-warning marker searched for in NJOY's stdout. -/
def warn_msg : String := "---message from consis---consistency problems found"

/-- Whether `needle` occurs as a contiguous substring of `hay`
(`re.search` of a metacharacter-free literal pattern). -/
def containsSeq (needle : List Char) : List Char → Bool
  | [] => needle.isEmpty
  | c :: rest => needle.isPrefixOf (c :: rest) || containsSeq needle rest

/-- `run_njoy`'s outstream result, as a function of the decoded stdout and
stderr of the external process: non-empty stderr is returned verbatim;
otherwise the sentinel `"warning"` if the marker occurs in stdout, else
`None`. -/
def run_njoy_outstream (stdout stderr : String) : Option String :=
  if stderr ≠ "" then some stderr
  else if containsSeq warn_msg.toList stdout.toList then some "warning"
  else none

/-- How `par_ace_lib` records a finished NJOY invocation. -/
inductive NJOYOutcome where
  | clean
  | warned
  | failed (txt : String)
deriving DecidableEq

/-- The ledger dispatch of `par_ace_lib` on the outstream: `None` is clean,
the exact string `"warning"` goes to the warnings ledger, anything else to the
errors ledger. -/
def record_outcome : Option String → NJOYOutcome
  | none => .clean
  | some s => if s = "warning" then .warned else .failed s

/-! ### Worker-pool sizing in `buildacelib` (lines 123-129) -/

/-- The pool size used by `buildacelib`: the given `np` if supplied, else
`mp.cpu_count() - 2` (a plain subtraction on Python ints, so it can be zero
or negative on machines with at most 2 CPUs). -/
def resolve_pool_np (np : Option ℤ) (cpu_count : ℕ) : ℤ :=
  match np with
  | some n => n
  | none => (cpu_count : ℤ) - 2

/-- `multiprocessing.Pool(processes)` requires at least one worker; it raises
`ValueError` otherwise. -/
def pool_size_valid (n : ℤ) : Prop := 1 ≤ n

/-! ### The identity cross-checks of `makeinput` (lines 754-759 and 845-852) -/

/-- Whether `re.search("([0-9]+)m", nuclname)` matches: some digit is
immediately followed by the letter `m`. -/
def hasDigitM : List Char → Bool
  | [] => false
  | [_] => false
  | a :: b :: rest => (a.isDigit && b = 'm') || hasDigitM (b :: rest)

/-- The `metaflag` computed from the file name (lines 754-759): `1` when the
metastable marker is present, else Python `None`. -/
def metaflag_of (nuclname : String) : Option ℕ :=
  if hasDigitM nuclname.toList then some 1 else none

/-- Left zero/space padding used by Python format specifiers. -/
def padLeftWith (c : Char) (w : ℕ) (s : String) : String :=
  if s.length < w then String.mk (List.replicate (w - s.length) c) ++ s else s

/-- Python `f"{n:03d}"` for the non-negative mass numbers used here. -/
def fmt03d (n : ℕ) : String := padLeftWith '0' 3 (toString n)

/-- The filename-derived identifier `ZAID = f"{Z}{int(A):03d}"` (line 840). -/
def zaid_of (Z : ℕ) (A : ℕ) : String := toString Z ++ fmt03d A

/-- The two `OSError`s raised by the identity cross-check in `makeinput`. -/
inductive MkinpErr where
  | nameIsoConflict
  | nameZaidConflict
deriving DecidableEq

/-- The identity cross-check of `makeinput` for neutron / photo-nuclear files
(lines 845-852), applied after `parseENDF6` returned `(ZA, MAT, natflag,
iso)`: raise when the file name claims a metastable nuclide but the header's
isomer state is ground, then raise when the name-derived ZAID disagrees with
the header's ZA for a non-natural element. -/
def makeinput_identity_check (metaflag : Option ℕ) (iso : ℕ) (ZA ZAID : String)
    (natflag : ℕ) : Except MkinpErr Unit :=
  if metaflag = some 1 ∧ iso = 0 then .error .nameIsoConflict
  else if ZA ≠ ZAID ∧ natflag ≠ 1 then .error .nameZaidConflict
  else .ok ()

/-! ### `build_njoy_deck` (ProcessNDL.py lines 932-1108)

The impure inputs of the Python function — `gethostname()` and
`datetime.now()` — are passed explicitly, so the builder is a pure function
of all its inputs. -/

/-- Python `f"{n:02d}"`. -/
def fmt02d (n : ℤ) : String := padLeftWith '0' 2 (toString n)

/-- The 6-significant-digit mantissa (as a natural number in
`[10^5, 10^6)`) and decimal exponent of `m ≥ 1`, rounding half to even at the
sixth digit.  The temperatures the module formats have at most six digits, so
they are represented exactly and the rounding branch matches Python's float
formatting on every input the module produces. -/
def sci5digits (m : ℕ) : ℕ × ℕ :=
  let k := (toString m).length
  if k ≤ 6 then (m * 10 ^ (6 - k), k - 1)
  else
    let d := 10 ^ (k - 6)
    let q := m / d
    let r := m % d
    let q2 := if d < 2 * r ∨ (2 * r = d ∧ q % 2 = 1) then q + 1 else q
    if q2 = 10 ^ 6 then (10 ^ 5, k) else (q2, k - 1)

/-- Python `f"{tmp:12.5e}"` on an integer temperature: scientific notation
with five fractional digits, two-digit exponent, right-aligned in a field of
width 12. -/
def fmt_12_5e (n : ℤ) : String :=
  let core :=
    if n = 0 then "0.00000e+00"
    else
      let me := sci5digits n.natAbs
      let mant :=
        match (toString me.1).toList with
        | d :: restd => String.mk [d] ++ "." ++ String.mk restd
        | [] => ""
      (if n < 0 then "-" else "") ++ mant ++ "e+" ++ padLeftWith '0' 2 (toString me.2)
  padLeftWith ' ' 12 core

/-- The ACER comment card embedding the nuclide label, library name, program
version, host name and timestamp. -/
def prov_line (ASA libname vers hostname now : String) : String :=
  "'" ++ ASA ++ ", " ++ libname ++ ", NJOY" ++ vers ++ ", " ++ hostname ++ " " ++ now ++ "'/"

/-- `build_njoy_deck(MAT, ASA, proj, libname, vers, tmp, kerma, binary)` as
the list of deck lines (the Python function returns their `"\n".join`).
`kerma = none` is Python `None`; `some true` is the truthy flag the KERMA
pass is invoked with.  Branch structure and every literal line follow the
source in order. -/
def build_njoy_deck (MAT ASA proj libname vers : String) (tmp : ℤ)
    (kerma : Option Bool) (binary : Bool) (hostname now : String) : List String :=
  if proj = "n" ∧ kerma = none then
    ["moder", "1 -21/", "'" ++ ASA ++ "'/", "20 " ++ MAT ++ "/", "0/",
     "reconr", "-21 -22/", "'" ++ ASA ++ " PENDF'/", MAT ++ " 2/",
     "0.001 0.0 0.01 5.0e-7/", "''/", "''/", "0/",
     "broadr", "-21 -22 -23/", MAT ++ " 1/", "0.001 2.0e6 0.01 5.0e-7/",
     fmt_12_5e tmp ++ "/", "0/",
     "heatr", "-21 -23 -24 40/", MAT ++ " 7 0 0 1 2/",
     "302 303 304 318 401 443 444/",
     "gaspr", "-21 -24 -25/",
     "purr", "-21 -25 -26/", MAT ++ " 1 1 20 64/", fmt_12_5e tmp ++ "/",
     "1.0e10/", "0/"]
    ++ (if binary = false then ["moder", "-26 96/"] else [])
    ++ ["acer", "-21 -26 0 27 28/", "1 1 1 ." ++ fmt02d (Int.tdiv tmp 100) ++ "/",
        prov_line ASA libname vers hostname now,
        MAT ++ " " ++ fmt_12_5e tmp ++ "/", "1 1/", "/",
        "acer", "0 27 33 29 30/", "7 1 1 ." ++ fmt02d (Int.tdiv tmp 100) ++ "/", "''/",
        "viewr", "33 34/", "viewr", "40 35/", "stop"]
  else if proj = "n" ∧ kerma = some true then
    ["heatr", "-21 -23 -54 60/", MAT ++ " 7 0 0 0 2/",
     "302 303 304 318 401 443 444/",
     "purr", "-21 -54 -56/", MAT ++ " 1 7 20 64/", fmt_12_5e tmp ++ "/",
     "1.0e10 1.0e5 1.0e4 1.0e3 1.0e2 1.0e1 1/", "0/",
     "moder", "-26 66/", "moder/", "-56 67/", "stop"]
  else if proj = "pa" then
    ["acer", "20 21 0 29 30/", "4 1 1 .00/",
     prov_line ASA libname vers hostname now,
     " " ++ MAT ++ "/", "stop"]
  else if proj = "pn" then
    ["moder", "20 -21/",
     "reconr", "-21 -22/", "/", MAT ++ " 1 0/", "0.001 0./", "/", "0/",
     "acer", "-21 -22 0 27 28/", "5 0 1 ." ++ fmt02d (Int.tdiv tmp 100) ++ "/",
     prov_line ASA libname vers hostname now,
     MAT ++ "/",
     "acer", "0 27 33 29 30/", "7 1 1 ." ++ fmt02d (Int.tdiv tmp 100) ++ "/", "/",
     "viewr", "33 34/", "stop"]
  else ["stop"]

/-- Two line lists that agree everywhere except at one position, where the
first holds `m1` and the second `m2` (used to state that two decks differ
only in the provenance card). -/
inductive AgreeExcept : List String → List String → String → String → Prop where
  | here (m1 m2 : String) (post : List String) :
      AgreeExcept (m1 :: post) (m2 :: post) m1 m2
  | cons (a : String) {l1 l2 : List String} {m1 m2 : String}
      (h : AgreeExcept l1 l2 m1 m2) : AgreeExcept (a :: l1) (a :: l2) m1 m2

/-! ### `move_and_clean` (ProcessNDL.py lines 299-544)

The router runs with the job's temporary directory as the process working
directory; bare file names (`"tape29"`, `"output"`, ...) refer to files in
that directory, while destinations are built with `os.path.join` from the
output tree, the input-library data directory or the atomic-relaxation
directory.  Those four roots are distinct directories by construction
(`tempfile.TemporaryDirectory` creates a fresh unique directory), so paths
are modelled as a tagged type.  The model tracks file existence, the
`success` flag and the loop-carried `ipath`/`opath` variables; file contents
(which only influence the appended-warning strings and the `fiss`/`ures`
flags read from `tape29`) are abstracted into the `fiss`/`ures` parameters. -/

/-- A file path in a routing job's world. -/
inductive NPath where
  | tmp (name : String)
  | data (name : String)
  | relax (name : String)
  | outp (sub : String) (name : String)
deriving DecidableEq

/-- A destination-directory key of the `dir_names` dictionary. -/
inductive MDir where
  | dataDir
  | relaxDir
  | outSub (sub : String)
deriving DecidableEq

/-- The set of existing files. -/
abbrev FSet := List NPath

/-- Create (or overwrite) a file. -/
def FSet.insertP (p : NPath) (fs : FSet) : FSet := if p ∈ fs then fs else p :: fs

/-- The state threaded through the move loop: the file set, the `success`
flag, and the `ipath`/`opath` locals (Python leaves them unassigned before
the first iteration; the first processed entry always assigns them, so the
initial values below are never read on any Python-reachable run). -/
structure MCState where
  fs : FSet
  success : Bool
  ipath : NPath
  opath : NPath

/-- The uncaught exceptions that abort `move_and_clean`: `FileNotFoundError`
from `parseENDF6("tape20")` at entry, from the unguarded
`open('output', 'rb')` in the log-compression arm of the move loop, and from
the unguarded final `os.remove("output")`. -/
inductive MCCrash where
  | tape20Missing
  | outputMissing
  | removeOutputMissing
deriving DecidableEq

/-- `sh.move(ipath, opath)` wrapped in `try/except FileNotFoundError`:
a missing source only clears the `success` flag. -/
def attempt_move (s : MCState) : MCState :=
  if s.ipath ∈ s.fs then { s with fs := FSet.insertP s.opath (s.fs.erase s.ipath) }
  else { s with success := false }

/-- The binary/ASCII PENDF tape names (line 351). -/
def pendfnames (binary : Bool) : List String :=
  if binary then ["tape26", "tape56"] else ["tape96", "tape67"]

/-- The `dir_names` dictionary (lines 354-363), flattened to insertion order
with singleton values wrapped into lists; a `none` entry is the Python `None`
that stands in for a missing KERMA input file name. -/
def dir_names (proj inp : String) (inpK : Option String) (binary : Bool) :
    List (MDir × List (Option String)) :=
  if proj = "n" then
    [(MDir.dataDir, [some "tape20"]),
     (MDir.outSub "pendfdir_bin", (pendfnames binary).map some),
     (MDir.outSub "acedir", [some "tape29"]),
     (MDir.outSub "xsdir", [some "tape30_1"]),
     (MDir.outSub "njoyout", [some "out.gz"]),
     (MDir.outSub "viewheatdir", [some "tape35", some "tape60"]),
     (MDir.outSub "viewacedir", [some "tape34"]),
     (MDir.outSub "njoyinp", [some inp, inpK])]
  else if proj = "pa" then
    [(MDir.dataDir, [some "tape20"]),
     (MDir.relaxDir, [some "tape21"]),
     (MDir.outSub "acedir", [some "tape29"]),
     (MDir.outSub "xsdir", [some "tape30_1"]),
     (MDir.outSub "njoyout", [some "out.gz"]),
     (MDir.outSub "njoyinp", [some inp])]
  else
    [(MDir.dataDir, [some "tape20"]),
     (MDir.outSub "pendfdir_bin", [some "tape22"]),
     (MDir.outSub "acedir", [some "tape29"]),
     (MDir.outSub "xsdir", [some "tape30_1"]),
     (MDir.outSub "njoyout", [some "out.gz"]),
     (MDir.outSub "viewacedir", [some "tape34"]),
     (MDir.outSub "njoyinp", [some inp])]

/-- The `ext_names["n"]` dictionary (lines 366-371): renamed suffix (or the
canonical ENDF name for the two dataset tapes) per raw artifact name. -/
def ext_name_n (endfname inp : String) (inpK : Option String) (fname : String) : String :=
  if fname = "tape20" ∨ fname = "tape21" then endfname
  else if fname = "tape26" ∨ fname = "tape96" then ".pendf"
  else if fname = "tape29" then ".ace"
  else if fname = "tape30_1" then ".xsdir"
  else if fname = "out.gz" then ".out.gz"
  else if fname = "tape34" ∨ fname = "tape35" then ".eps"
  else if fname = inp then ".njoyinp"
  else if some fname = inpK then ".njoyinpK"
  else if fname = "tape56" then "_KERMA.pendf"
  else if fname = "tape60" then "_KERMA.eps"
  else if fname = "tape67" then "_KERMA.pendf"
  else ""

/-- The `ext_names[proj]` dictionaries (lines 366-378). -/
def ext_name (proj endfname inp : String) (inpK : Option String) (fname : String) : String :=
  if proj = "n" then ext_name_n endfname inp inpK fname
  else if proj = "pa" then
    if fname = "tape20" ∨ fname = "tape21" then endfname
    else if fname = "tape29" then ".ace"
    else if fname = "tape30_1" then ".xsdir"
    else if fname = "out.gz" then ".out.gz"
    else if fname = inp then ".njoyinp"
    else ""
  else
    if fname = "tape20" then endfname
    else if fname = "tape22" then ".pendf"
    else if fname = "tape29" then ".ace"
    else if fname = "tape30_1" then ".xsdir"
    else if fname = "out.gz" then ".out.gz"
    else if fname = "tape34" then ".eps"
    else if fname = inp then ".njoyinp"
    else ""

/-- `os.path.join(path, dirname, name)` for an output move (the branch for
ordinary artifacts; the `dataDir`/`relaxDir` cases cannot reach this join in
the source's dictionaries). -/
def destOf : MDir → String → NPath
  | MDir.outSub sub, name => NPath.outp sub name
  | MDir.dataDir, name => NPath.data name
  | MDir.relaxDir, name => NPath.relax name

/-- `os.path.join(dirname, name)` for the `tape20`/`tape21` branch, which
moves the dataset back under the input-library directory keyed by
`dirname`. -/
def destCanonical : MDir → String → NPath
  | MDir.dataDir, name => NPath.data name
  | MDir.relaxDir, name => NPath.relax name
  | MDir.outSub sub, name => NPath.outp sub name

/-- One iteration of the move loop (lines 503-533).  A `none` entry (a
missing KERMA input) skips the path assignments, so the `try: sh.move`
re-runs with the stale `ipath`/`opath` of the previous iteration.  The
`out.gz` entry first gzip-compresses `output`; that `open('output', 'rb')`
sits outside the `try`, so a missing `output` aborts the whole router. -/
def mc_step (ASAIDT : String) (extName : String → String)
    (it : MDir × Option String) (s : MCState) : Except MCCrash MCState :=
  match it with
  | (_, none) => .ok (attempt_move s)
  | (dirname, some fname) =>
    if fname = "out.gz" then
      if NPath.tmp "output" ∈ s.fs then
        .ok (attempt_move { s with
          fs := FSet.insertP (NPath.tmp "out.gz") s.fs,
          ipath := NPath.tmp "out.gz",
          opath := destOf dirname (ASAIDT ++ extName "out.gz") })
      else .error .outputMissing
    else if fname ≠ "tape20" ∧ fname ≠ "tape21" then
      .ok (attempt_move { s with
        ipath := NPath.tmp fname,
        opath := destOf dirname (ASAIDT ++ extName fname) })
    else
      .ok (attempt_move { s with
        ipath := NPath.tmp fname,
        opath := destCanonical dirname (extName fname) })

/-- The whole move loop over the flattened `dir_names` entries. -/
def mc_run (ASAIDT : String) (extName : String → String) :
    List (MDir × Option String) → MCState → Except MCCrash MCState
  | [], s => .ok s
  | it :: rest, s =>
    match mc_step ASAIDT extName it s with
    | .error c => .error c
    | .ok s2 => mc_run ASAIDT extName rest s2

/-- Flattening of the `dir_names` dictionary into loop items. -/
def flatten_moves (d : List (MDir × List (Option String))) : List (MDir × Option String) :=
  d.flatMap (fun e => e.2.map (fun f => (e.1, f)))

/-- The files opened for reading by the ACE fix-up step (lines 380-478), in
program order; the first missing one raises the caught `FileNotFoundError`
that clears `success` and skips the rest of the step.  The step only rewrites
and appends to existing files, so the file set itself is unchanged. -/
def step1_required (proj : String) (fiss ures : Bool) : List String :=
  if proj = "n" ∨ proj = "pn" then
    ["tape29"] ++ (if fiss then ["tape20", "tape66"] else []) ++ ["tape67"]
      ++ (if fiss then ["tape67"] else []) ++ (if ures then ["tape67"] else [])
  else []

/-- The `success` flag after the two guarded rewrite steps: the ACE fix-up
found every file it reads (step 1, a caught `FileNotFoundError` otherwise)
and the xsdir rewrite found `tape30` (step 2). -/
def mc_success0 (proj : String) (fiss ures : Bool) (fs0 : FSet) : Bool :=
  (step1_required proj fiss ures).all (fun n => decide (NPath.tmp n ∈ fs0))
    && decide (NPath.tmp "tape30" ∈ fs0)

/-- The file set after the xsdir rewrite: `tape30_1` is created when `tape30`
could be read (step 1 only rewrites/appends to existing files). -/
def mc_fs1 (fs0 : FSet) : FSet :=
  if NPath.tmp "tape30" ∈ fs0 then FSet.insertP (NPath.tmp "tape30_1") fs0 else fs0

/-- `glob.glob(os.path.join(tmpath, "tape*"))` cleanup: remove the remaining
`tape*` scratch files from the temporary directory. -/
def glob_tapes (fs : FSet) : FSet :=
  fs.filter (fun p =>
    match p with
    | NPath.tmp n => !(List.isPrefixOf "tape".toList n.toList)
    | _ => true)

/-- `move_and_clean` over the existence model: parse `tape20` (uncaught crash
when the staged dataset is absent), run the guarded ACE fix-up and xsdir
rewrite (each clearing `success` on a missing file), run the move loop, then
delete remaining `tape*` scratch files and the raw `output` stream (the
latter unguarded). -/
def move_and_clean (proj ASAIDT endfname inp : String) (inpK : Option String)
    (binary fiss ures : Bool) (fs0 : FSet) : Except MCCrash (FSet × Bool) :=
  if NPath.tmp "tape20" ∈ fs0 then
    match mc_run ASAIDT (ext_name proj endfname inp inpK)
        (flatten_moves (dir_names proj inp inpK binary))
        (MCState.mk (mc_fs1 fs0) (mc_success0 proj fiss ures fs0)
          (NPath.tmp "") (NPath.tmp "")) with
    | .error c => .error c
    | .ok s =>
      if NPath.tmp "output" ∈ glob_tapes s.fs then
        .ok ((glob_tapes s.fs).erase (NPath.tmp "output"), s.success)
      else .error .removeOutputMissing
  else .error .tape20Missing


/-- The flattened move plan of a neutron job after the leading dataset entry
(`p1`/`p2` are the two PENDF tape names selected by the binary flag). -/
def rest_items_n (inp : String) (inpK : Option String) (p1 p2 : String) :
    List (MDir × Option String) :=
  [(MDir.outSub "pendfdir_bin", some p1), (MDir.outSub "pendfdir_bin", some p2),
   (MDir.outSub "acedir", some "tape29"), (MDir.outSub "xsdir", some "tape30_1"),
   (MDir.outSub "njoyout", some "out.gz"), (MDir.outSub "viewheatdir", some "tape35"),
   (MDir.outSub "viewheatdir", some "tape60"), (MDir.outSub "viewacedir", some "tape34"),
   (MDir.outSub "njoyinp", some inp), (MDir.outSub "njoyinp", inpK)]

/-- The flattened move plan of a photo-atomic job after the dataset entry. -/
def rest_items_pa (inp : String) : List (MDir × Option String) :=
  [(MDir.relaxDir, some "tape21"), (MDir.outSub "acedir", some "tape29"),
   (MDir.outSub "xsdir", some "tape30_1"), (MDir.outSub "njoyout", some "out.gz"),
   (MDir.outSub "njoyinp", some inp)]

/-- The flattened move plan of a photo-nuclear job after the dataset entry. -/
def rest_items_pn (inp : String) : List (MDir × Option String) :=
  [(MDir.outSub "pendfdir_bin", some "tape22"), (MDir.outSub "acedir", some "tape29"),
   (MDir.outSub "xsdir", some "tape30_1"), (MDir.outSub "njoyout", some "out.gz"),
   (MDir.outSub "viewacedir", some "tape34"), (MDir.outSub "njoyinp", some inp)]

/-- The staged files a job is expected to provide to the router: the files
read by the ACE fix-up (step 1), the routing table `tape30` (step 2), and
every move source of the per-kind plan that the router does not itself create
(`tape30_1` is created by step 2 and `out.gz` by the compression arm, so they
are not staged inputs; `tape20` is listed via step 1 when the fission branch
reads it back). -/
def mc_expected (proj : String) (binary fiss ures : Bool) (inp : String)
    (inpK : Option String) : List String :=
  step1_required proj fiss ures ++ ["tape30"] ++
  (if proj = "n" then
    pendfnames binary ++ ["tape29", "tape35", "tape60", "tape34", inp]
      ++ (match inpK with | some k => [k] | none => [])
  else if proj = "pa" then ["tape21", "tape29", inp]
  else ["tape22", "tape29", "tape34", inp])

/-! ### Concrete sample inputs used by witnesses and counterexamples -/

/-- Sample marker record: ZA field ` 9.223500+4`, MAT `9228`, tag `1451`. -/
def sample_mk_u235 : ELine :=
  " 9.223500+4".toList ++ List.replicate 55 ' ' ++ "9228".toList ++ (' ' :: "1451".toList)

/-- Sample inconsistent second record: excitation energy `1.000000+5`,
isomer state `0`. -/
def sample_nx_conflict : ELine := " 1.000000+5 0.000000+0 1 0".toList

/-- Sample marker record for a heavy metastable nuclide: ZA field
` 9.524200+4` (Am-242, A = 242 > 200), MAT `9547`. -/
def sample_mk_am242 : ELine :=
  " 9.524200+4".toList ++ List.replicate 55 ' ' ++ "9547".toList ++ (' ' :: "1451".toList)

/-- Sample metastable second record: isomer state `2`. -/
def sample_nx_isomer : ELine := " 4.860000+4 0.000000+0 1 2".toList

/-- A neutron job's working directory with every expected artifact staged
except the ACE output `tape29`. -/
def sample_fs_missing_tape29 : FSet :=
  [NPath.tmp "tape20", NPath.tmp "output", NPath.tmp "tape67", NPath.tmp "tape30",
   NPath.tmp "tape26", NPath.tmp "tape56", NPath.tmp "tape35", NPath.tmp "tape60",
   NPath.tmp "tape34", NPath.tmp "U-235_06.njoyinp", NPath.tmp "U-235_06.njoyinpK"]

/-- A neutron job's working directory with every expected artifact staged
except the raw execution-output file `output`. -/
def sample_fs_missing_output : FSet :=
  [NPath.tmp "tape20", NPath.tmp "tape29", NPath.tmp "tape67", NPath.tmp "tape30",
   NPath.tmp "tape26", NPath.tmp "tape56", NPath.tmp "tape35", NPath.tmp "tape60",
   NPath.tmp "tape34", NPath.tmp "U-235_06.njoyinp", NPath.tmp "U-235_06.njoyinpK"]

/-! ## Theorems -/

/-! ### Header-parser loop lemmas -/

/-- Lines without the marker tag are skipped by the scan loop while no marker
has been seen. -/
theorem parseENDF6_go_skip (pre : List ELine) :
    ∀ (rest : List ELine) (i : ℕ), (∀ l ∈ pre, tagOf l ≠ marker1451) →
      parseENDF6_go (pre ++ rest) i (-10) none
        = parseENDF6_go rest (i + pre.length) (-10) none := by
  induction pre with
  | nil => intro rest i _; simp
  | cons l pre ih =>
    intro rest i h
    have hl : tagOf l ≠ marker1451 := h l (by simp)
    rw [List.cons_append]
    show parseENDF6_go (l :: (pre ++ rest)) i (-10) none = _
    rw [parseENDF6_go]
    rw [if_neg (fun hc => hl hc.1), if_neg (by omega)]
    rw [ih rest (i + 1) (fun x hx => h x (by simp [hx]))]
    have harith : i + 1 + pre.length = i + (l :: pre).length := by
      simp [List.length_cons]; omega
    rw [harith]

/-- One marker step of the loop: at a marker record seen while `linepos` is
still `-10`, the loop decodes ZA and dispatches the immediately following
line to the second-record processing. -/
theorem parseENDF6_go_marker (mk nx : ELine) (rest : List ELine) (i : ℕ)
    (za : ℤ)
    (hmk : tagOf mk = marker1451)
    (hza : decodeZA mk = .ok za) :
    parseENDF6_go (mk :: nx :: rest) i (-10) none
      = match parse_line2 nx (za - Int.tdiv za 1000 * 1000) with
        | .error e => .error e
        | .ok iso =>
          .ok (some ⟨toString za, String.mk (matOf mk),
               (if za - Int.tdiv za 1000 * 1000 = 0 then 1 else 0), iso⟩) := by
  rw [parseENDF6_go, if_pos ⟨hmk, rfl⟩, hza]
  show parseENDF6_go (nx :: rest) (i + 1) (i : ℤ)
      (some (za, String.mk (matOf mk),
        (if za - Int.tdiv za 1000 * 1000 = 0 then 1 else 0),
        za - Int.tdiv za 1000 * 1000)) = _
  rw [parseENDF6_go, if_neg (fun hc => by omega), if_pos (by push_cast; ring)]

/-- After the marker record is consumed, the very next line is dispatched to
the second-record processing. -/
theorem parseENDF6_cons_structure (pre : List ELine) (mk nx : ELine)
    (rest : List ELine) (za : ℤ)
    (hpre : ∀ l ∈ pre, tagOf l ≠ marker1451)
    (hmk : tagOf mk = marker1451)
    (hza : decodeZA mk = .ok za) :
    parseENDF6 (pre ++ mk :: nx :: rest)
      = match parse_line2 nx (za - Int.tdiv za 1000 * 1000) with
        | .error e => .error e
        | .ok iso =>
          .ok ⟨toString za, String.mk (matOf mk),
               (if za - Int.tdiv za 1000 * 1000 = 0 then 1 else 0), iso⟩ := by
  unfold parseENDF6
  rw [parseENDF6_go_skip pre (mk :: nx :: rest) 0 hpre]
  rw [parseENDF6_go_marker mk nx rest (0 + pre.length) za hmk hza]
  cases parse_line2 nx (za - Int.tdiv za 1000 * 1000) <;> rfl

/-- The second-record processing raises the identity conflict when the
excitation energy is positive and the isomer state is zero. -/
theorem parse_line2_conflict (l : ELine) (A : ℤ) (e : PyFloat) (t0 t3 : List Char)
    (ht0 : (pysplit l)[0]? = some t0)
    (he : pyfloat (plusToE t0) = some e)
    (hepos : e.pos)
    (ht3 : (pysplit l)[3]? = some t3)
    (hiso : pyint t3 = some 0) :
    parse_line2 l A = .error .identityConflict := by
  simp only [parse_line2, ht0, he, ht3, hiso]
  rw [if_pos ⟨hepos, trivial⟩]

/-- The second-record processing selects the A-bracket multiplier for a
positive isomer state. -/
theorem parse_line2_isomer (l : ELine) (A : ℤ) (e : PyFloat) (k : ℤ)
    (t0 t3 : List Char)
    (ht0 : (pysplit l)[0]? = some t0)
    (he : pyfloat (plusToE t0) = some e)
    (ht3 : (pysplit l)[3]? = some t3)
    (hiso : pyint t3 = some k)
    (hk : 0 < k) :
    parse_line2 l A = .ok (if 200 < A then 1 else if 100 < A then 2 else 3) := by
  simp only [parse_line2, ht0, he, ht3, hiso]
  rw [if_neg (fun hc => by omega), if_pos hk]

/-! ### Claim C1 -/

/-- Claim C1: for every evaluation file whose first marker record is followed
by a record whose excitation-energy token parses to a value strictly greater
than zero while its isomer-state token parses to zero, `parseENDF6` raises
the identity-conflict error (the explicit `ValueError`) instead of returning
an identity. -/
theorem parseENDF6_identity_conflict (pre : List ELine) (mk nx : ELine)
    (rest : List ELine) (za : ℤ) (e : PyFloat) (t0 t3 : List Char)
    (hpre : ∀ l ∈ pre, tagOf l ≠ marker1451)
    (hmk : tagOf mk = marker1451)
    (hza : decodeZA mk = .ok za)
    (ht0 : (pysplit nx)[0]? = some t0)
    (he : pyfloat (plusToE t0) = some e)
    (hepos : e.pos)
    (ht3 : (pysplit nx)[3]? = some t3)
    (hiso : pyint t3 = some 0) :
    parseENDF6 (pre ++ mk :: nx :: rest) = .error .identityConflict := by
  rw [parseENDF6_cons_structure pre mk nx rest za hpre hmk hza]
  rw [parse_line2_conflict nx _ e t0 t3 ht0 he hepos ht3 hiso]

/-- Witness for C1: a two-record file with positive excitation energy and
ground isomer state makes `parseENDF6` raise the identity conflict. -/
theorem parseENDF6_identity_conflict_witness :
    parseENDF6 [sample_mk_u235, sample_nx_conflict] = .error .identityConflict := by
  exact parseENDF6_identity_conflict [] sample_mk_u235 sample_nx_conflict []
    92235 ⟨1000000, -1⟩ "1.000000+5".toList "0".toList
    (by simp) (by decide) (by decide) (by decide) (by decide)
    (show (0 : ℤ) < 1000000 by decide) (by decide) (by decide)

/-! ### Claim C3 -/

/-- Claim C3: when the record after the first marker record parses with a
strictly positive isomer-state ordinal, `parseENDF6` returns, and its isomer
multiplier is 1 for mass number A > 200, 2 for 100 < A ≤ 200 and 3 for
A ≤ 100, with A decoded from the combined Z·1000+A field. -/
theorem parseENDF6_isomer_multiplier (pre : List ELine) (mk nx : ELine)
    (rest : List ELine) (za : ℤ) (e : PyFloat) (k : ℤ) (t0 t3 : List Char)
    (hpre : ∀ l ∈ pre, tagOf l ≠ marker1451)
    (hmk : tagOf mk = marker1451)
    (hza : decodeZA mk = .ok za)
    (ht0 : (pysplit nx)[0]? = some t0)
    (he : pyfloat (plusToE t0) = some e)
    (ht3 : (pysplit nx)[3]? = some t3)
    (hiso : pyint t3 = some k)
    (hkpos : 0 < k) :
    parseENDF6 (pre ++ mk :: nx :: rest)
      = .ok ⟨toString za, String.mk (matOf mk),
             (if za - Int.tdiv za 1000 * 1000 = 0 then 1 else 0),
             (if 200 < za - Int.tdiv za 1000 * 1000 then 1
              else if 100 < za - Int.tdiv za 1000 * 1000 then 2 else 3)⟩ := by
  rw [parseENDF6_cons_structure pre mk nx rest za hpre hmk hza]
  rw [parse_line2_isomer nx _ e k t0 t3 ht0 he ht3 hiso hkpos]

/-- Witness for C3: Am-242m (A = 242 > 200) gets isomer multiplier 1. -/
theorem parseENDF6_isomer_multiplier_witness :
    parseENDF6 [sample_mk_am242, sample_nx_isomer] = .ok ⟨"95242", "9547", 0, 1⟩ := by
  have h := parseENDF6_isomer_multiplier [] sample_mk_am242 sample_nx_isomer []
    95242 ⟨4860000, -2⟩ 2 "4.860000+4".toList "2".toList
    (by simp) (by decide) (by decide) (by decide) (by decide) (by decide)
    (by decide) (by decide)
  rw [List.nil_append] at h
  rw [h]
  decide

/-! ### Claim C8 -/

/-- Claim C8 (amended): on a file with no `1451`-tagged record the parser
does fail, but with Python's `UnboundLocalError` — the `return` statement
reads locals that were never assigned — not with a distinct defined
malformed-header error. -/
theorem parseENDF6_no_marker_unbound_local (lines : List ELine)
    (h : ∀ l ∈ lines, tagOf l ≠ marker1451) :
    parseENDF6 lines = .error .unboundLocal := by
  have hgo := parseENDF6_go_skip lines [] 0 h
  rw [List.append_nil] at hgo
  unfold parseENDF6
  rw [hgo]
  rfl

/-- Counterexample for C8 as stated: on a concrete marker-free file the
failure is the interpreter's `UnboundLocalError`, which is not an error the
program raises (there is no defined malformed-header error in the code; the
only explicit raise in `parseENDF6` is the identity-conflict `ValueError`). -/
theorem parseENDF6_no_marker_cex :
    parseENDF6 [" 9.223500+4 no marker here".toList] = .error .unboundLocal
    ∧ PErr.unboundLocal.isExplicitRaise = false := by
  exact ⟨rfl, rfl⟩

/-- Witness for the amended C8 at a concrete marker-free file. -/
theorem parseENDF6_no_marker_unbound_local_witness :
    parseENDF6 ["just text".toList, "".toList] = .error .unboundLocal := by
  exact parseENDF6_no_marker_unbound_local ["just text".toList, "".toList] (by decide)

/-! ### Claim C7 -/

set_option maxRecDepth 100000 in
/-- Claim C7: the symbol→Z and Z→symbol tables are mutual inverses over all
118 entries — every (symbol, Z) pair of the forward table looks up back to
itself in both directions, and every atomic number from 1 to 118 round-trips
through the backward then forward table. -/
theorem periodic_tables_mutual_inverse :
    ASZ_periodic_table.length = 118
    ∧ (∀ p ∈ ASZ_periodic_table, ZAS_lookup p.2 = some p.1 ∧ ASZ_lookup p.1 = some p.2)
    ∧ (∀ z ∈ List.range' 1 118, (ZAS_lookup z).bind ASZ_lookup = some z) := by
  decide

/-- Witness for C7 at the concrete entry ("He", 2). -/
theorem periodic_tables_mutual_inverse_witness :
    (ZAS_lookup 2 = some "He" ∧ ASZ_lookup "He" = some 2)
    ∧ (ZAS_lookup 2).bind ASZ_lookup = some 2 :=
  ⟨periodic_tables_mutual_inverse.2.1 ("He", 2) (by decide),
   periodic_tables_mutual_inverse.2.2 2 (by decide)⟩

/-! ### Claim C2 -/

/-- Counterexample for C2 as stated: when the external program writes the
exact text `warning` to stderr, `run_njoy` does return it verbatim, but the
job is recorded as Warned (the outstream equals the warning sentinel), not as
Failed as the claim requires for every non-empty stderr. -/
theorem run_njoy_warning_collision_cex :
    run_njoy_outstream "" "warning" = some "warning"
    ∧ record_outcome (run_njoy_outstream "" "warning") = .warned
    ∧ record_outcome (run_njoy_outstream "" "warning") ≠ .failed "warning" := by
  refine ⟨rfl, rfl, by decide⟩

/-- Claim C2 (amended): non-empty stderr is returned verbatim and the job is
recorded as Failed unless the stderr text is exactly the sentinel string
`warning`, in which case it is recorded as Warned; empty stderr with the
consistency marker in stdout yields the sentinel and a Warned record; empty
stderr without the marker yields the clean result. -/
theorem run_njoy_classification (stdout stderr : String) :
    (stderr ≠ "" → run_njoy_outstream stdout stderr = some stderr
      ∧ (stderr ≠ "warning" →
          record_outcome (run_njoy_outstream stdout stderr) = .failed stderr)
      ∧ (stderr = "warning" →
          record_outcome (run_njoy_outstream stdout stderr) = .warned))
    ∧ (stderr = "" → containsSeq warn_msg.toList stdout.toList = true →
        run_njoy_outstream stdout stderr = some "warning"
        ∧ record_outcome (run_njoy_outstream stdout stderr) = .warned)
    ∧ (stderr = "" → containsSeq warn_msg.toList stdout.toList = false →
        run_njoy_outstream stdout stderr = none
        ∧ record_outcome (run_njoy_outstream stdout stderr) = .clean) := by
  refine ⟨fun h => ?_, fun h hm => ?_, fun h hm => ?_⟩
  · have ho : run_njoy_outstream stdout stderr = some stderr := by
      simp only [run_njoy_outstream]; rw [if_pos h]
    refine ⟨ho, fun hw => ?_, fun hw => ?_⟩
    · rw [ho]; simp [record_outcome, hw]
    · rw [ho]; simp [record_outcome, hw]
  · subst h
    have hm2 : containsSeq warn_msg.data stdout.data = true := hm
    have ho : run_njoy_outstream stdout "" = some "warning" := by
      simp [run_njoy_outstream, hm2]
    exact ⟨ho, by rw [ho]; simp [record_outcome]⟩
  · subst h
    have hm2 : containsSeq warn_msg.data stdout.data = false := hm
    have ho : run_njoy_outstream stdout "" = none := by
      simp [run_njoy_outstream, hm2]
    exact ⟨ho, by rw [ho]; simp [record_outcome]⟩

/-- Witness for the amended C2: a concrete failing stderr is returned
verbatim and recorded as Failed. -/
theorem run_njoy_classification_witness :
    run_njoy_outstream "" "segmentation fault" = some "segmentation fault"
    ∧ record_outcome (run_njoy_outstream "" "segmentation fault")
        = .failed "segmentation fault" := by
  have h := (run_njoy_classification "" "segmentation fault").1 (by decide)
  exact ⟨h.1, h.2.1 (by decide)⟩

/-! ### Claim C6 -/

/-- Two lists related by `AgreeExcept` have equal length. -/
theorem AgreeExcept.length_eq {l1 l2 : List String} {m1 m2 : String}
    (h : AgreeExcept l1 l2 m1 m2) : l1.length = l2.length := by
  induction h with
  | here m1 m2 post => rfl
  | cons a h ih => simpa using ih

/-- Two lists related by `AgreeExcept` can disagree only at the distinguished
position, which holds `m1` in the first and `m2` in the second. -/
theorem AgreeExcept.getElem?_ne {l1 l2 : List String} {m1 m2 : String}
    (h : AgreeExcept l1 l2 m1 m2) :
    ∀ i : ℕ, l1[i]? ≠ l2[i]? → l1[i]? = some m1 ∧ l2[i]? = some m2 := by
  induction h with
  | here m1 m2 post =>
    intro i hne
    match i with
    | 0 => exact ⟨by simp, by simp⟩
    | n + 1 =>
      simp only [List.getElem?_cons_succ] at hne
      exact absurd rfl hne
  | cons a h ih =>
    intro i hne
    match i with
    | 0 =>
      simp only [List.getElem?_cons_zero] at hne
      exact absurd rfl hne
    | n + 1 =>
      simp only [List.getElem?_cons_succ] at hne ⊢
      exact ih n hne

/-- Claim C6: the deck builder is deterministic modulo the provenance card.
Two invocations with identical catalog index, nuclide label, particle kind,
library name, version tag, temperature, KERMA flag and binary flag produce
decks of equal length that agree line by line, except that any differing line
is the provenance card embedding the respective hostname and timestamp. -/
theorem build_njoy_deck_deterministic (MAT ASA proj libname vers : String)
    (tmp : ℤ) (kerma : Option Bool) (binary : Bool) (h1 n1 h2 n2 : String) :
    (build_njoy_deck MAT ASA proj libname vers tmp kerma binary h1 n1).length
      = (build_njoy_deck MAT ASA proj libname vers tmp kerma binary h2 n2).length
    ∧ ∀ i : ℕ,
        (build_njoy_deck MAT ASA proj libname vers tmp kerma binary h1 n1)[i]?
          ≠ (build_njoy_deck MAT ASA proj libname vers tmp kerma binary h2 n2)[i]? →
        (build_njoy_deck MAT ASA proj libname vers tmp kerma binary h1 n1)[i]?
          = some (prov_line ASA libname vers h1 n1)
        ∧ (build_njoy_deck MAT ASA proj libname vers tmp kerma binary h2 n2)[i]?
          = some (prov_line ASA libname vers h2 n2) := by
  have key : AgreeExcept
      (build_njoy_deck MAT ASA proj libname vers tmp kerma binary h1 n1)
      (build_njoy_deck MAT ASA proj libname vers tmp kerma binary h2 n2)
      (prov_line ASA libname vers h1 n1) (prov_line ASA libname vers h2 n2)
      ∨ build_njoy_deck MAT ASA proj libname vers tmp kerma binary h1 n1
        = build_njoy_deck MAT ASA proj libname vers tmp kerma binary h2 n2 := by
    unfold build_njoy_deck
    split_ifs
    all_goals
      first
      | (right; rfl)
      | (left
         try simp only [List.cons_append, List.nil_append, List.append_nil]
         repeat apply AgreeExcept.cons
         exact AgreeExcept.here _ _ _)
  rcases key with hk | hk
  · exact ⟨hk.length_eq, fun i => hk.getElem?_ne i⟩
  · rw [hk]
    exact ⟨rfl, fun i hne => absurd rfl hne⟩

/-- Witness for C6: two photo-atomic decks built on different hosts at
different times differ at position 3, which is the provenance card of each. -/
theorem build_njoy_deck_deterministic_witness :
    (build_njoy_deck "100" "H" "pa" "ENDF-B" "2016" 0 none true "hostA" "timeA")[3]?
      = some (prov_line "H" "ENDF-B" "2016" "hostA" "timeA")
    ∧ (build_njoy_deck "100" "H" "pa" "ENDF-B" "2016" 0 none true "hostB" "timeB")[3]?
      = some (prov_line "H" "ENDF-B" "2016" "hostB" "timeB") := by
  exact (build_njoy_deck_deterministic "100" "H" "pa" "ENDF-B" "2016" 0 none true
    "hostA" "timeA" "hostB" "timeB").2 3 (by decide)

/-! ### Claim C9 -/

/-- Counterexample for C9 as stated: with 2 CPUs the default pool size is 0,
which is not at least 1 (and `mp.Pool` would reject it). -/
theorem default_pool_size_cex :
    resolve_pool_np none 2 = 0 ∧ ¬ pool_size_valid (resolve_pool_np none 2) := by
  refine ⟨rfl, ?_⟩
  simp only [pool_size_valid, resolve_pool_np]
  omega

/-- Claim C9 (amended): when no worker-pool size is supplied, `buildacelib`
uses exactly `cpu_count - 2` with no minimum clamp; the result is a valid
pool size (at least 1) precisely when the machine has at least 3 CPUs. -/
theorem default_pool_size_value (c : ℕ) :
    resolve_pool_np none c = (c : ℤ) - 2
    ∧ (pool_size_valid (resolve_pool_np none c) ↔ 3 ≤ c) := by
  refine ⟨rfl, ?_⟩
  simp only [resolve_pool_np, pool_size_valid]
  omega

/-! ### Claim C10 -/

/-- Claim C10: for neutron / photo-nuclear inputs, `makeinput` raises the
name/isomer conflict when the file name carries the metastable marker but the
parsed header's isomer state is 0, and raises the name/ZAID conflict when the
name-derived ZAID differs from the header ZA for a non-natural element (the
isomer check being performed first). -/
theorem makeinput_identity_conflicts (nuclname : String) (iso : ℕ) (ZA : String)
    (Z A natflag : ℕ) :
    (hasDigitM nuclname.toList = true → iso = 0 →
      makeinput_identity_check (metaflag_of nuclname) iso ZA (zaid_of Z A) natflag
        = .error .nameIsoConflict)
    ∧ (ZA ≠ zaid_of Z A → natflag ≠ 1 →
        ¬ (metaflag_of nuclname = some 1 ∧ iso = 0) →
        makeinput_identity_check (metaflag_of nuclname) iso ZA (zaid_of Z A) natflag
          = .error .nameZaidConflict) := by
  constructor
  · intro hm hiso
    have hm2 : hasDigitM nuclname.data = true := hm
    simp [makeinput_identity_check, metaflag_of, hm2, hiso]
  · intro hza hnat hnot
    simp only [makeinput_identity_check]
    rw [if_neg hnot, if_pos ⟨hza, hnat⟩]

/-- Witness for C10: `U-235m` with a ground-state header triggers the isomer
conflict, and a name-derived ZAID of 92235 against a header ZA of 92238
triggers the ZAID conflict. -/
theorem makeinput_identity_conflicts_witness :
    makeinput_identity_check (metaflag_of "U-235m") 0 "92235" (zaid_of 92 235) 0
      = .error .nameIsoConflict
    ∧ makeinput_identity_check (metaflag_of "U-238") 0 "92238" (zaid_of 92 235) 0
      = .error .nameZaidConflict := by
  constructor
  · exact (makeinput_identity_conflicts "U-235m" 0 "92235" 92 235 0).1 (by decide) rfl
  · exact (makeinput_identity_conflicts "U-238" 0 "92238" 92 235 0).2
      (by decide) (by decide) (by decide)

/-! ### Artifact-router lemmas -/

/-- Creating a file preserves membership. -/
theorem FSet.mem_insertP (p q : NPath) (fs : FSet) (h : q ∈ fs) :
    q ∈ FSet.insertP p fs := by
  unfold FSet.insertP
  split_ifs <;> simp [h]

/-- A created file is present. -/
theorem FSet.mem_insertP_self (p : NPath) (fs : FSet) : p ∈ FSet.insertP p fs := by
  unfold FSet.insertP
  split_ifs with h
  · exact h
  · simp

/-- An attempted move whose source is a temporary-directory file other than
`output` keeps `ipath`/`opath`, keeps `output` present, keeps every
non-temporary path present, and can only lower the success flag. -/
theorem attempt_move_spec (s : MCState)
    (hip : ∃ m, s.ipath = NPath.tmp m ∧ m ≠ "output") :
    (attempt_move s).ipath = s.ipath
    ∧ (NPath.tmp "output" ∈ s.fs → NPath.tmp "output" ∈ (attempt_move s).fs)
    ∧ (∀ p : NPath, (∀ m, p ≠ NPath.tmp m) → p ∈ s.fs → p ∈ (attempt_move s).fs)
    ∧ ((attempt_move s).success = true → s.success = true) := by
  obtain ⟨m, hm, hmo⟩ := hip
  unfold attempt_move
  split_ifs with h
  · refine ⟨rfl, fun ho => ?_, fun p hp hin => ?_, fun hs => hs⟩
    · refine FSet.mem_insertP _ _ _ ?_
      refine (List.mem_erase_of_ne ?_).mpr ho
      rw [hm]
      simp only [ne_eq, NPath.tmp.injEq]
      exact fun hc => hmo hc.symm
    · refine FSet.mem_insertP _ _ _ ?_
      refine (List.mem_erase_of_ne ?_).mpr hin
      rw [hm]
      exact hp m
  · exact ⟨rfl, fun ho => ho, fun p _ hin => hin, fun hs => absurd hs (by simp)⟩

/-- `attempt_move` after the loop body assigned `ipath := tmp fname` with a
source other than `output`: the bundled facts used by the loop invariant. -/
theorem attempt_move_assign (s : MCState) (fname : String) (op : NPath)
    (hfn : fname ≠ "output") (hout : NPath.tmp "output" ∈ s.fs) :
    NPath.tmp "output" ∈ (attempt_move { s with ipath := NPath.tmp fname, opath := op }).fs
    ∧ (∃ m, (attempt_move { s with ipath := NPath.tmp fname, opath := op }).ipath
          = NPath.tmp m ∧ m ≠ "output")
    ∧ (∀ p : NPath, (∀ m, p ≠ NPath.tmp m) →
        p ∈ s.fs → p ∈ (attempt_move { s with ipath := NPath.tmp fname, opath := op }).fs)
    ∧ ((attempt_move { s with ipath := NPath.tmp fname, opath := op }).success = true
        → s.success = true) := by
  have ham := attempt_move_spec { s with ipath := NPath.tmp fname, opath := op }
    ⟨fname, rfl, hfn⟩
  exact ⟨ham.2.1 hout, ⟨fname, by rw [ham.1], hfn⟩, ham.2.2.1, ham.2.2.2⟩

/-- The move loop never crashes when the raw `output` stream is present and no
planned source is named `output`; it keeps `output` and every non-temporary
path present, and can only lower the success flag. -/
theorem mc_run_total (ASAIDT : String) (extName : String → String)
    (items : List (MDir × Option String)) :
    ∀ s : MCState,
      (∀ it ∈ items, ∀ n : String, it.2 = some n → n ≠ "output") →
      NPath.tmp "output" ∈ s.fs →
      (∃ m, s.ipath = NPath.tmp m ∧ m ≠ "output") →
      ∃ s2, mc_run ASAIDT extName items s = .ok s2
        ∧ NPath.tmp "output" ∈ s2.fs
        ∧ (∃ m, s2.ipath = NPath.tmp m ∧ m ≠ "output")
        ∧ (∀ p : NPath, (∀ m, p ≠ NPath.tmp m) → p ∈ s.fs → p ∈ s2.fs)
        ∧ (s2.success = true → s.success = true) := by
  induction items with
  | nil =>
    intro s _ hout hip
    exact ⟨s, rfl, hout, hip, fun p _ h => h, fun h => h⟩
  | cons it rest ih =>
    intro s hitems hout hip
    have hstep : ∃ s1, mc_step ASAIDT extName it s = .ok s1
        ∧ NPath.tmp "output" ∈ s1.fs
        ∧ (∃ m, s1.ipath = NPath.tmp m ∧ m ≠ "output")
        ∧ (∀ p : NPath, (∀ m, p ≠ NPath.tmp m) → p ∈ s.fs → p ∈ s1.fs)
        ∧ (s1.success = true → s.success = true) := by
      rcases it with ⟨dirname, fname?⟩
      cases fname? with
      | none =>
        have ham := attempt_move_spec s hip
        refine ⟨attempt_move s, rfl, ham.2.1 hout, ?_, ham.2.2.1, ham.2.2.2⟩
        rw [ham.1]
        exact hip
      | some fname =>
        have hfn : fname ≠ "output" :=
          hitems (dirname, some fname) (by simp) fname rfl
        by_cases hgz : fname = "out.gz"
        · subst hgz
          rw [show mc_step ASAIDT extName (dirname, some "out.gz") s
              = if NPath.tmp "output" ∈ s.fs then
                  Except.ok (attempt_move { s with
                    fs := FSet.insertP (NPath.tmp "out.gz") s.fs,
                    ipath := NPath.tmp "out.gz",
                    opath := destOf dirname (ASAIDT ++ extName "out.gz") })
                else Except.error MCCrash.outputMissing from rfl,
            if_pos hout]
          have ham := attempt_move_spec { s with
              fs := FSet.insertP (NPath.tmp "out.gz") s.fs,
              ipath := NPath.tmp "out.gz",
              opath := destOf dirname (ASAIDT ++ extName "out.gz") }
            ⟨"out.gz", rfl, by decide⟩
          refine ⟨_, rfl, ham.2.1 (FSet.mem_insertP _ _ _ hout), ?_, ?_, ham.2.2.2⟩
          · rw [ham.1]
            exact ⟨"out.gz", rfl, by decide⟩
          · intro p hp hin
            exact ham.2.2.1 p hp (FSet.mem_insertP _ _ _ hin)
        · by_cases h20 : fname ≠ "tape20" ∧ fname ≠ "tape21"
          · simp only [mc_step]
            rw [if_neg hgz, if_pos h20]
            have ham := attempt_move_assign s fname
              (destOf dirname (ASAIDT ++ extName fname)) hfn hout
            exact ⟨_, rfl, ham.1, ham.2.1, ham.2.2.1, ham.2.2.2⟩
          · simp only [mc_step]
            rw [if_neg hgz, if_neg h20]
            have ham := attempt_move_assign s fname
              (destCanonical dirname (extName fname)) hfn hout
            exact ⟨_, rfl, ham.1, ham.2.1, ham.2.2.1, ham.2.2.2⟩
    obtain ⟨s1, hs1, hout1, hip1, hpres1, hmono1⟩ := hstep
    obtain ⟨s2, hs2, hout2, hip2, hpres2, hmono2⟩ :=
      ih s1 (fun x hx => hitems x (by simp [hx])) hout1 hip1
    refine ⟨s2, ?_, hout2, hip2,
      fun p hp hin => hpres2 p hp (hpres1 p hp hin),
      fun h => hmono1 (hmono2 h)⟩
    simp only [mc_run, hs1]
    exact hs2

/-- Running the move loop on a plan that begins with the dataset entry: the
loop completes, the dataset ends up at its canonical input-library path, the
raw `output` stream is still present, and the success flag can only drop. -/
theorem mc_run_dataset (ASAIDT : String) (extName : String → String)
    (endfname : String) (restItems : List (MDir × Option String)) (s : MCState)
    (hext : extName "tape20" = endfname)
    (hrest : ∀ it ∈ restItems, ∀ n : String, it.2 = some n → n ≠ "output")
    (hout : NPath.tmp "output" ∈ s.fs)
    (h20 : NPath.tmp "tape20" ∈ s.fs) :
    ∃ s2, mc_run ASAIDT extName ((MDir.dataDir, some "tape20") :: restItems) s = .ok s2
      ∧ NPath.tmp "output" ∈ s2.fs
      ∧ NPath.data endfname ∈ s2.fs
      ∧ (s2.success = true → s.success = true) := by
  have hstep : mc_step ASAIDT extName (MDir.dataDir, some "tape20") s
      = .ok (attempt_move
          { s with ipath := NPath.tmp "tape20", opath := NPath.data endfname }) := by
    rw [← hext]
    rfl
  have hs1 : attempt_move
      { s with ipath := NPath.tmp "tape20", opath := NPath.data endfname }
      = { s with
          fs := FSet.insertP (NPath.data endfname) (s.fs.erase (NPath.tmp "tape20")),
          ipath := NPath.tmp "tape20",
          opath := NPath.data endfname } := by
    unfold attempt_move
    rw [if_pos h20]
  have hout1 : NPath.tmp "output" ∈ (FSet.insertP (NPath.data endfname)
      (s.fs.erase (NPath.tmp "tape20"))) := by
    refine FSet.mem_insertP _ _ _ ?_
    exact (List.mem_erase_of_ne (by decide)).mpr hout
  have hdata1 : NPath.data endfname ∈ (FSet.insertP (NPath.data endfname)
      (s.fs.erase (NPath.tmp "tape20"))) := FSet.mem_insertP_self _ _
  obtain ⟨s2, hs2, hout2, _, hpres2, hmono2⟩ := mc_run_total ASAIDT extName restItems
    { s with
      fs := FSet.insertP (NPath.data endfname) (s.fs.erase (NPath.tmp "tape20")),
      ipath := NPath.tmp "tape20",
      opath := NPath.data endfname }
    hrest hout1 ⟨"tape20", rfl, by decide⟩
  refine ⟨s2, ?_, hout2, ?_, fun h => hmono2 h⟩
  · simp only [mc_run, hstep, hs1]
    exact hs2
  · exact hpres2 (NPath.data endfname) (fun m => by simp) hdata1

/-- Assembled routing run: with the dataset staged and the raw `output`
stream present, `move_and_clean` returns (no crash), the dataset sits at its
canonical path in the final file set, and the returned success flag implies
the guarded-step flag. -/
theorem move_and_clean_ok_aux (proj ASAIDT endfname inp : String)
    (inpK : Option String) (binary fiss ures : Bool) (fs0 : FSet)
    (restItems : List (MDir × Option String))
    (hflat : flatten_moves (dir_names proj inp inpK binary)
      = (MDir.dataDir, some "tape20") :: restItems)
    (hext : ext_name proj endfname inp inpK "tape20" = endfname)
    (hrest : ∀ it ∈ restItems, ∀ n : String, it.2 = some n → n ≠ "output")
    (h20 : NPath.tmp "tape20" ∈ fs0)
    (hout : NPath.tmp "output" ∈ fs0) :
    ∃ fs1 succ, move_and_clean proj ASAIDT endfname inp inpK binary fiss ures fs0
        = .ok (fs1, succ)
      ∧ NPath.data endfname ∈ fs1
      ∧ (succ = true → mc_success0 proj fiss ures fs0 = true) := by
  have hout1 : NPath.tmp "output" ∈ mc_fs1 fs0 := by
    unfold mc_fs1
    split_ifs
    · exact FSet.mem_insertP _ _ _ hout
    · exact hout
  have h201 : NPath.tmp "tape20" ∈ mc_fs1 fs0 := by
    unfold mc_fs1
    split_ifs
    · exact FSet.mem_insertP _ _ _ h20
    · exact h20
  obtain ⟨s2, hs2, hout2, hdata2, hmono2⟩ := mc_run_dataset ASAIDT
    (ext_name proj endfname inp inpK) endfname restItems
    (MCState.mk (mc_fs1 fs0) (mc_success0 proj fiss ures fs0)
      (NPath.tmp "") (NPath.tmp ""))
    hext hrest hout1 h201
  have hmem3 : NPath.tmp "output" ∈ glob_tapes s2.fs := by
    unfold glob_tapes
    exact List.mem_filter.mpr ⟨hout2, by decide⟩
  have hdata3 : NPath.data endfname ∈ (glob_tapes s2.fs).erase (NPath.tmp "output") := by
    refine (List.mem_erase_of_ne (by simp)).mpr ?_
    unfold glob_tapes
    exact List.mem_filter.mpr ⟨hdata2, rfl⟩
  unfold move_and_clean
  rw [if_pos h20, hflat]
  simp only [hs2]
  rw [if_pos hmem3]
  exact ⟨_, _, rfl, hdata3, fun h => hmono2 h⟩

/-- No source in the neutron move plan is named `output`. -/
theorem rest_items_n_ok (inp : String) (inpK : Option String) (p1 p2 : String)
    (hp1 : p1 ≠ "output") (hp2 : p2 ≠ "output") (hinp : inp ≠ "output")
    (hinpK : ∀ k, inpK = some k → k ≠ "output") :
    ∀ it ∈ rest_items_n inp inpK p1 p2, ∀ n : String, it.2 = some n → n ≠ "output" := by
  intro it hit n hn
  simp only [rest_items_n, List.mem_cons, List.not_mem_nil, or_false] at hit
  rcases hit with rfl | rfl | rfl | rfl | rfl | rfl | rfl | rfl | rfl | rfl
  all_goals
    first
    | (injection hn with hh; subst hh; decide)
    | (injection hn with hh; subst hh; exact hp1)
    | (injection hn with hh; subst hh; exact hp2)
    | (injection hn with hh; subst hh; exact hinp)
    | exact hinpK n hn

/-- No source in the photo-atomic move plan is named `output`. -/
theorem rest_items_pa_ok (inp : String) (hinp : inp ≠ "output") :
    ∀ it ∈ rest_items_pa inp, ∀ n : String, it.2 = some n → n ≠ "output" := by
  intro it hit n hn
  simp only [rest_items_pa, List.mem_cons, List.not_mem_nil, or_false] at hit
  rcases hit with rfl | rfl | rfl | rfl | rfl
  all_goals
    first
    | (injection hn with hh; subst hh; decide)
    | (injection hn with hh; subst hh; exact hinp)

/-- No source in the photo-nuclear move plan is named `output`. -/
theorem rest_items_pn_ok (inp : String) (hinp : inp ≠ "output") :
    ∀ it ∈ rest_items_pn inp, ∀ n : String, it.2 = some n → n ≠ "output" := by
  intro it hit n hn
  simp only [rest_items_pn, List.mem_cons, List.not_mem_nil, or_false] at hit
  rcases hit with rfl | rfl | rfl | rfl | rfl | rfl
  all_goals
    first
    | (injection hn with hh; subst hh; decide)
    | (injection hn with hh; subst hh; exact hinp)

/-- Elimination for file creation: a member of the updated set is the created
file or was already present. -/
theorem FSet.mem_insertP_elim {p q : NPath} {fs : FSet} (h : q ∈ FSet.insertP p fs) :
    q = p ∨ q ∈ fs := by
  unfold FSet.insertP at h
  split_ifs at h with hc
  · exact Or.inr h
  · rcases List.mem_cons.mp h with h | h
    · exact Or.inl h
    · exact Or.inr h

/-- Output-tree and canonical destinations are never temporary-directory
paths. -/
theorem destOf_ne_tmp (d : MDir) (name : String) :
    ∀ m : String, destOf d name ≠ NPath.tmp m := by
  intro m
  cases d <;> simp [destOf]

/-- Canonical dataset destinations are never temporary-directory paths. -/
theorem destCanonical_ne_tmp (d : MDir) (name : String) :
    ∀ m : String, destCanonical d name ≠ NPath.tmp m := by
  intro m
  cases d <;> simp [destCanonical]

/-- An attempted move leaves `opath` unchanged. -/
theorem attempt_move_opath (s : MCState) : (attempt_move s).opath = s.opath := by
  unfold attempt_move
  split_ifs <;> rfl

/-- An attempted move never raises the success flag. -/
theorem attempt_move_success_mono (s : MCState) :
    (attempt_move s).success = true → s.success = true := by
  unfold attempt_move
  split_ifs
  · exact fun h => h
  · intro h
    exact absurd h (by simp)

/-- An attempted move whose destination is not a temporary-directory file
(or is the never-written initial `tmp ""`) cannot create a temporary file
with a non-empty name. -/
theorem attempt_move_absent (s : MCState) (g : String) (hg : g ≠ "")
    (hop : s.opath = NPath.tmp "" ∨ ∀ m, s.opath ≠ NPath.tmp m)
    (habs : NPath.tmp g ∉ s.fs) : NPath.tmp g ∉ (attempt_move s).fs := by
  unfold attempt_move
  split_ifs with h
  · intro hmem
    rcases FSet.mem_insertP_elim hmem with heq | hmem2
    · rcases hop with hop | hop
      · rw [hop] at heq
        injection heq with hh
        exact hg hh
      · exact hop g heq.symm
    · exact habs (List.mem_of_mem_erase hmem2)
  · exact habs

/-- A loop step that returns can only lower the success flag, keeps the
destination-path invariant, and never creates a staged temporary file (the
only temporary file it can create is `out.gz`). -/
theorem mc_step_ok_spec (ASAIDT : String) (extName : String → String)
    (it : MDir × Option String) (s s1 : MCState)
    (hstep : mc_step ASAIDT extName it s = .ok s1) :
    (s1.success = true → s.success = true)
    ∧ ((s.opath = NPath.tmp "" ∨ ∀ m, s.opath ≠ NPath.tmp m) →
        (s1.opath = NPath.tmp "" ∨ ∀ m, s1.opath ≠ NPath.tmp m)
        ∧ ∀ g : String, g ≠ "" → g ≠ "out.gz" →
            NPath.tmp g ∉ s.fs → NPath.tmp g ∉ s1.fs) := by
  rcases it with ⟨dirname, fname?⟩
  cases fname? with
  | none =>
    simp only [mc_step] at hstep
    injection hstep with h
    subst h
    refine ⟨attempt_move_success_mono s, fun hop => ⟨?_, ?_⟩⟩
    · rw [attempt_move_opath]
      exact hop
    · intro g hg _ habs
      exact attempt_move_absent s g hg hop habs
  | some fname =>
    by_cases hgz : fname = "out.gz"
    · subst hgz
      rw [show mc_step ASAIDT extName (dirname, some "out.gz") s
          = if NPath.tmp "output" ∈ s.fs then
              Except.ok (attempt_move { s with
                fs := FSet.insertP (NPath.tmp "out.gz") s.fs,
                ipath := NPath.tmp "out.gz",
                opath := destOf dirname (ASAIDT ++ extName "out.gz") })
            else Except.error MCCrash.outputMissing from rfl] at hstep
      split_ifs at hstep with hc
      · injection hstep with h
        subst h
        refine ⟨attempt_move_success_mono _, fun _ => ⟨?_, ?_⟩⟩
        · rw [attempt_move_opath]
          exact Or.inr (destOf_ne_tmp dirname _)
        · intro g hg hggz habs
          refine attempt_move_absent _ g hg (Or.inr (destOf_ne_tmp dirname _)) ?_
          intro hmem
          rcases FSet.mem_insertP_elim hmem with heq | h2
          · injection heq with hh
            exact hggz hh
          · exact habs h2
    · by_cases h20 : fname ≠ "tape20" ∧ fname ≠ "tape21"
      · simp only [mc_step] at hstep
        rw [if_neg hgz, if_pos h20] at hstep
        injection hstep with h
        subst h
        refine ⟨attempt_move_success_mono _, fun _ => ⟨?_, ?_⟩⟩
        · rw [attempt_move_opath]
          exact Or.inr (destOf_ne_tmp dirname _)
        · intro g hg _ habs
          exact attempt_move_absent _ g hg (Or.inr (destOf_ne_tmp dirname _)) habs
      · simp only [mc_step] at hstep
        rw [if_neg hgz, if_neg h20] at hstep
        injection hstep with h
        subst h
        refine ⟨attempt_move_success_mono _, fun _ => ⟨?_, ?_⟩⟩
        · rw [attempt_move_opath]
          exact Or.inr (destCanonical_ne_tmp dirname _)
        · intro g hg _ habs
          exact attempt_move_absent _ g hg (Or.inr (destCanonical_ne_tmp dirname _)) habs

/-- A completed loop run can only lower the success flag. -/
theorem mc_run_success_mono (ASAIDT : String) (extName : String → String)
    (items : List (MDir × Option String)) :
    ∀ s s2 : MCState, mc_run ASAIDT extName items s = .ok s2 →
      s2.success = true → s.success = true := by
  induction items with
  | nil =>
    intro s s2 hrun h
    simp only [mc_run] at hrun
    injection hrun with hh
    rw [hh]
    exact h
  | cons it rest ih =>
    intro s s2 hrun h
    simp only [mc_run] at hrun
    cases hstep : mc_step ASAIDT extName it s with
    | error c => simp [hstep] at hrun
    | ok s1 =>
      simp only [hstep] at hrun
      exact (mc_step_ok_spec ASAIDT extName it s s1 hstep).1 (ih s1 s2 hrun h)

/-- If some plan entry names a staged temporary file that is absent when the
loop starts (and that the router never creates), its move attempt fails and
the final success flag of a completed run is false. -/
theorem mc_run_missing_mem (ASAIDT : String) (extName : String → String)
    (f : String) (hfe : f ≠ "") (hfgz : f ≠ "out.gz")
    (items : List (MDir × Option String)) :
    ∀ s s2 : MCState,
      mc_run ASAIDT extName items s = .ok s2 →
      (s.opath = NPath.tmp "" ∨ ∀ m, s.opath ≠ NPath.tmp m) →
      NPath.tmp f ∉ s.fs →
      (∃ dir : MDir, (dir, some f) ∈ items) →
      s2.success = false := by
  induction items with
  | nil =>
    intro s s2 _ _ _ hmem
    rcases hmem with ⟨dir, hd⟩
    simp at hd
  | cons it rest ih =>
    intro s s2 hrun hop habs hmem
    simp only [mc_run] at hrun
    cases hstep : mc_step ASAIDT extName it s with
    | error c => simp [hstep] at hrun
    | ok s1 =>
      simp only [hstep] at hrun
      rcases hmem with ⟨dir, hd⟩
      rcases List.mem_cons.mp hd with heq | hmemr
      · subst heq
        have hs1f : s1.success = false := by
          by_cases h20 : f ≠ "tape20" ∧ f ≠ "tape21"
          · simp only [mc_step] at hstep
            rw [if_neg hfgz, if_pos h20] at hstep
            injection hstep with h
            rw [← h]
            show (attempt_move { s with
              ipath := NPath.tmp f,
              opath := destOf dir (ASAIDT ++ extName f) }).success = false
            unfold attempt_move
            rw [if_neg habs]
          · simp only [mc_step] at hstep
            rw [if_neg hfgz, if_neg h20] at hstep
            injection hstep with h
            rw [← h]
            show (attempt_move { s with
              ipath := NPath.tmp f,
              opath := destCanonical dir (extName f) }).success = false
            unfold attempt_move
            rw [if_neg habs]
        cases hs2 : s2.success with
        | false => rfl
        | true =>
          have := mc_run_success_mono ASAIDT extName rest s1 s2 hrun hs2
          rw [hs1f] at this
          exact Bool.noConfusion this
      · have hsp := (mc_step_ok_spec ASAIDT extName it s s1 hstep).2 hop
        exact ih s1 s2 hrun hsp.1 (hsp.2 f hfe hfgz habs) ⟨dir, hmemr⟩

/-- A staged file required by the ACE fix-up that is absent clears the
guarded-step flag. -/
theorem mc_success0_missing_step1 (proj : String) (fiss ures : Bool) (fs0 : FSet)
    (f : String) (hf : f ∈ step1_required proj fiss ures)
    (habs : NPath.tmp f ∉ fs0) : mc_success0 proj fiss ures fs0 = false := by
  unfold mc_success0
  cases hall : (step1_required proj fiss ures).all (fun n => decide (NPath.tmp n ∈ fs0)) with
  | false => rfl
  | true =>
    have hdec := List.all_eq_true.mp hall f hf
    exact absurd (of_decide_eq_true hdec) habs

/-- A missing routing table `tape30` clears the guarded-step flag. -/
theorem mc_success0_missing_tape30 (proj : String) (fiss ures : Bool) (fs0 : FSet)
    (habs : NPath.tmp "tape30" ∉ fs0) : mc_success0 proj fiss ures fs0 = false := by
  unfold mc_success0
  rw [decide_eq_false habs, Bool.and_false]

/-- If a completed routing run returned a flag, and some plan entry names a
staged file missing from the initial working directory (one the router never
creates), the returned flag is false. -/
theorem move_and_clean_missing_flag (proj ASAIDT endfname inp : String)
    (inpK : Option String) (binary fiss ures : Bool) (fs0 fs1 : FSet)
    (succ : Bool) (f : String) (dir : MDir)
    (hok : move_and_clean proj ASAIDT endfname inp inpK binary fiss ures fs0
      = .ok (fs1, succ))
    (hmem : (dir, some f) ∈ flatten_moves (dir_names proj inp inpK binary))
    (hfe : f ≠ "") (hfgz : f ≠ "out.gz") (hf31 : f ≠ "tape30_1")
    (habs : NPath.tmp f ∉ fs0) :
    succ = false := by
  unfold move_and_clean at hok
  by_cases h20 : NPath.tmp "tape20" ∈ fs0
  · rw [if_pos h20] at hok
    cases hrun : mc_run ASAIDT (ext_name proj endfname inp inpK)
        (flatten_moves (dir_names proj inp inpK binary))
        (MCState.mk (mc_fs1 fs0) (mc_success0 proj fiss ures fs0)
          (NPath.tmp "") (NPath.tmp "")) with
    | error c => simp [hrun] at hok
    | ok s =>
      simp only [hrun] at hok
      have habs1 : NPath.tmp f ∉ mc_fs1 fs0 := by
        unfold mc_fs1
        split_ifs
        · intro hmem2
          rcases FSet.mem_insertP_elim hmem2 with heq | h2
          · injection heq with hh
            exact hf31 hh
          · exact habs h2
        · exact habs
      have hsf : s.success = false := mc_run_missing_mem ASAIDT
        (ext_name proj endfname inp inpK) f hfe hfgz
        (flatten_moves (dir_names proj inp inpK binary)) _ s hrun
        (Or.inl rfl) habs1 ⟨dir, hmem⟩
      split_ifs at hok
      simp only [Except.ok.injEq, Prod.mk.injEq] at hok
      rw [← hok.2]
      exact hsf
  · rw [if_neg h20] at hok
    simp at hok

/-! ### Claim C4 -/

/-- Counterexample for C4 as stated: on a neutron job whose raw execution
output `output` is missing, the router does not record a failed success flag
and continue — the unguarded `open('output', 'rb')` in the log-compression
arm raises an uncaught `FileNotFoundError` and aborts routing, so the moves
after the `njoyout` entry (`tape35`, `tape60`, `tape34`, the deck files) are
never attempted. -/
theorem move_and_clean_missing_output_aborts_cex :
    move_and_clean "n" "U-235_06" "U-235.jeff" "U-235_06.njoyinp"
      (some "U-235_06.njoyinpK") true false false sample_fs_missing_output
      = .error .outputMissing := by
  rfl

/-- Claim C4 (amended): when the staged dataset and the raw execution-output
file are present, any expected file found missing while rewriting the ACE
output (the step-1 reads), rewriting the routing-table file (`tape30`), or
moving recognized outputs (any staged move source of the per-kind plan) sets
the returned success flag to false but does not abort routing — the router
always returns, attempting every move.  (A missing `output`, by contrast,
aborts routing with an uncaught error — see the counterexample.) -/
theorem move_and_clean_best_effort (proj ASAIDT endfname inp : String)
    (inpK : Option String) (binary fiss ures : Bool) (fs0 : FSet)
    (hproj : proj = "n" ∨ proj = "pa" ∨ proj = "pn")
    (h20 : NPath.tmp "tape20" ∈ fs0)
    (hout : NPath.tmp "output" ∈ fs0)
    (hinp : inp ∉ (["output", "", "out.gz", "tape30_1"] : List String))
    (hinpK : ∀ k, inpK = some k → k ∉ (["output", "", "out.gz", "tape30_1"] : List String)) :
    ∃ fs1 succ, move_and_clean proj ASAIDT endfname inp inpK binary fiss ures fs0
        = .ok (fs1, succ)
      ∧ ∀ f ∈ mc_expected proj binary fiss ures inp inpK,
          NPath.tmp f ∉ fs0 → succ = false := by
  have hinp4 : inp ≠ "output" ∧ inp ≠ "" ∧ inp ≠ "out.gz" ∧ inp ≠ "tape30_1" := by
    simpa using hinp
  have hinpK4 : ∀ k, inpK = some k →
      k ≠ "output" ∧ k ≠ "" ∧ k ≠ "out.gz" ∧ k ≠ "tape30_1" := by
    intro k hk
    simpa using hinpK k hk
  have hfin : ∀ restItems : List (MDir × Option String),
      flatten_moves (dir_names proj inp inpK binary)
        = (MDir.dataDir, some "tape20") :: restItems →
      ext_name proj endfname inp inpK "tape20" = endfname →
      (∀ it ∈ restItems, ∀ n : String, it.2 = some n → n ≠ "output") →
      (∀ f ∈ mc_expected proj binary fiss ures inp inpK,
        f ∈ step1_required proj fiss ures ∨ f = "tape30" ∨
        (f ≠ "" ∧ f ≠ "out.gz" ∧ f ≠ "tape30_1" ∧
          ∃ dir : MDir, (dir, some f) ∈ (MDir.dataDir, some "tape20") :: restItems)) →
      ∃ fs1 succ, move_and_clean proj ASAIDT endfname inp inpK binary fiss ures fs0
          = .ok (fs1, succ)
        ∧ ∀ f ∈ mc_expected proj binary fiss ures inp inpK,
            NPath.tmp f ∉ fs0 → succ = false := by
    intro restItems hflat hext hrest hsub
    obtain ⟨fs1, succ, hok, _, hflag⟩ := move_and_clean_ok_aux proj ASAIDT endfname
      inp inpK binary fiss ures fs0 restItems hflat hext hrest h20 hout
    refine ⟨fs1, succ, hok, ?_⟩
    intro f hf habs
    have hviaflag : mc_success0 proj fiss ures fs0 = false → succ = false := by
      intro h0
      cases succ with
      | false => rfl
      | true => exact absurd (hflag rfl) (by simp [h0])
    rcases hsub f hf with h1 | rfl | ⟨h2, h3, h4, dir, hmem⟩
    · exact hviaflag (mc_success0_missing_step1 proj fiss ures fs0 f h1 habs)
    · exact hviaflag (mc_success0_missing_tape30 proj fiss ures fs0 habs)
    · exact move_and_clean_missing_flag proj ASAIDT endfname inp inpK binary
        fiss ures fs0 fs1 succ f dir hok (by rw [hflat]; exact hmem) h2 h3 h4 habs
  rcases hproj with h | h | h <;> subst h
  · cases inpK with
    | none =>
      cases binary with
      | false =>
        refine hfin (rest_items_n inp none "tape96" "tape67") rfl rfl
          (rest_items_n_ok inp none "tape96" "tape67" (by decide) (by decide)
            hinp4.1 (fun k hk => Option.noConfusion hk)) ?_
        intro f hf
        have hf2 : f ∈ step1_required "n" fiss ures ∨ f = "tape30" ∨ f = "tape96"
            ∨ f = "tape67" ∨ f = "tape29" ∨ f = "tape35" ∨ f = "tape60"
            ∨ f = "tape34" ∨ f = inp := by
          simp only [mc_expected, pendfnames, Bool.false_eq_true, if_false,
            if_true, List.append_nil, List.mem_append, List.mem_cons,
            List.not_mem_nil, or_false, reduceIte] at hf
          tauto
        rcases hf2 with h1 | rfl | rfl | rfl | rfl | rfl | rfl | rfl | rfl
        · exact Or.inl h1
        · exact Or.inr (Or.inl rfl)
        all_goals refine Or.inr (Or.inr ?_)
        · exact ⟨by decide, by decide, by decide,
            MDir.outSub "pendfdir_bin", by simp [rest_items_n]⟩
        · exact ⟨by decide, by decide, by decide,
            MDir.outSub "pendfdir_bin", by simp [rest_items_n]⟩
        · exact ⟨by decide, by decide, by decide,
            MDir.outSub "acedir", by simp [rest_items_n]⟩
        · exact ⟨by decide, by decide, by decide,
            MDir.outSub "viewheatdir", by simp [rest_items_n]⟩
        · exact ⟨by decide, by decide, by decide,
            MDir.outSub "viewheatdir", by simp [rest_items_n]⟩
        · exact ⟨by decide, by decide, by decide,
            MDir.outSub "viewacedir", by simp [rest_items_n]⟩
        · exact ⟨hinp4.2.1, hinp4.2.2.1, hinp4.2.2.2,
            MDir.outSub "njoyinp", by simp [rest_items_n]⟩
      | true =>
        refine hfin (rest_items_n inp none "tape26" "tape56") rfl rfl
          (rest_items_n_ok inp none "tape26" "tape56" (by decide) (by decide)
            hinp4.1 (fun k hk => Option.noConfusion hk)) ?_
        intro f hf
        have hf2 : f ∈ step1_required "n" fiss ures ∨ f = "tape30" ∨ f = "tape26"
            ∨ f = "tape56" ∨ f = "tape29" ∨ f = "tape35" ∨ f = "tape60"
            ∨ f = "tape34" ∨ f = inp := by
          simp only [mc_expected, pendfnames, Bool.false_eq_true, if_false,
            if_true, List.append_nil, List.mem_append, List.mem_cons,
            List.not_mem_nil, or_false, reduceIte] at hf
          tauto
        rcases hf2 with h1 | rfl | rfl | rfl | rfl | rfl | rfl | rfl | rfl
        · exact Or.inl h1
        · exact Or.inr (Or.inl rfl)
        all_goals refine Or.inr (Or.inr ?_)
        · exact ⟨by decide, by decide, by decide,
            MDir.outSub "pendfdir_bin", by simp [rest_items_n]⟩
        · exact ⟨by decide, by decide, by decide,
            MDir.outSub "pendfdir_bin", by simp [rest_items_n]⟩
        · exact ⟨by decide, by decide, by decide,
            MDir.outSub "acedir", by simp [rest_items_n]⟩
        · exact ⟨by decide, by decide, by decide,
            MDir.outSub "viewheatdir", by simp [rest_items_n]⟩
        · exact ⟨by decide, by decide, by decide,
            MDir.outSub "viewheatdir", by simp [rest_items_n]⟩
        · exact ⟨by decide, by decide, by decide,
            MDir.outSub "viewacedir", by simp [rest_items_n]⟩
        · exact ⟨hinp4.2.1, hinp4.2.2.1, hinp4.2.2.2,
            MDir.outSub "njoyinp", by simp [rest_items_n]⟩
    | some k0 =>
      have hk4 := hinpK4 k0 rfl
      cases binary with
      | false =>
        refine hfin (rest_items_n inp (some k0) "tape96" "tape67") rfl rfl
          (rest_items_n_ok inp (some k0) "tape96" "tape67" (by decide) (by decide)
            hinp4.1 (fun k hk => by injection hk with hh; exact hh ▸ hk4.1)) ?_
        intro f hf
        have hf2 : f ∈ step1_required "n" fiss ures ∨ f = "tape30" ∨ f = "tape96"
            ∨ f = "tape67" ∨ f = "tape29" ∨ f = "tape35" ∨ f = "tape60"
            ∨ f = "tape34" ∨ f = inp ∨ f = k0 := by
          simp only [mc_expected, pendfnames, Bool.false_eq_true, if_false,
            if_true, List.append_nil, List.mem_append, List.mem_cons,
            List.not_mem_nil, or_false, reduceIte] at hf
          tauto
        rcases hf2 with h1 | rfl | rfl | rfl | rfl | rfl | rfl | rfl | rfl | rfl
        · exact Or.inl h1
        · exact Or.inr (Or.inl rfl)
        all_goals refine Or.inr (Or.inr ?_)
        · exact ⟨by decide, by decide, by decide,
            MDir.outSub "pendfdir_bin", by simp [rest_items_n]⟩
        · exact ⟨by decide, by decide, by decide,
            MDir.outSub "pendfdir_bin", by simp [rest_items_n]⟩
        · exact ⟨by decide, by decide, by decide,
            MDir.outSub "acedir", by simp [rest_items_n]⟩
        · exact ⟨by decide, by decide, by decide,
            MDir.outSub "viewheatdir", by simp [rest_items_n]⟩
        · exact ⟨by decide, by decide, by decide,
            MDir.outSub "viewheatdir", by simp [rest_items_n]⟩
        · exact ⟨by decide, by decide, by decide,
            MDir.outSub "viewacedir", by simp [rest_items_n]⟩
        · exact ⟨hinp4.2.1, hinp4.2.2.1, hinp4.2.2.2,
            MDir.outSub "njoyinp", by simp [rest_items_n]⟩
        · exact ⟨hk4.2.1, hk4.2.2.1, hk4.2.2.2,
            MDir.outSub "njoyinp", by simp [rest_items_n]⟩
      | true =>
        refine hfin (rest_items_n inp (some k0) "tape26" "tape56") rfl rfl
          (rest_items_n_ok inp (some k0) "tape26" "tape56" (by decide) (by decide)
            hinp4.1 (fun k hk => by injection hk with hh; exact hh ▸ hk4.1)) ?_
        intro f hf
        have hf2 : f ∈ step1_required "n" fiss ures ∨ f = "tape30" ∨ f = "tape26"
            ∨ f = "tape56" ∨ f = "tape29" ∨ f = "tape35" ∨ f = "tape60"
            ∨ f = "tape34" ∨ f = inp ∨ f = k0 := by
          simp only [mc_expected, pendfnames, Bool.false_eq_true, if_false,
            if_true, List.append_nil, List.mem_append, List.mem_cons,
            List.not_mem_nil, or_false, reduceIte] at hf
          tauto
        rcases hf2 with h1 | rfl | rfl | rfl | rfl | rfl | rfl | rfl | rfl | rfl
        · exact Or.inl h1
        · exact Or.inr (Or.inl rfl)
        all_goals refine Or.inr (Or.inr ?_)
        · exact ⟨by decide, by decide, by decide,
            MDir.outSub "pendfdir_bin", by simp [rest_items_n]⟩
        · exact ⟨by decide, by decide, by decide,
            MDir.outSub "pendfdir_bin", by simp [rest_items_n]⟩
        · exact ⟨by decide, by decide, by decide,
            MDir.outSub "acedir", by simp [rest_items_n]⟩
        · exact ⟨by decide, by decide, by decide,
            MDir.outSub "viewheatdir", by simp [rest_items_n]⟩
        · exact ⟨by decide, by decide, by decide,
            MDir.outSub "viewheatdir", by simp [rest_items_n]⟩
        · exact ⟨by decide, by decide, by decide,
            MDir.outSub "viewacedir", by simp [rest_items_n]⟩
        · exact ⟨hinp4.2.1, hinp4.2.2.1, hinp4.2.2.2,
            MDir.outSub "njoyinp", by simp [rest_items_n]⟩
        · exact ⟨hk4.2.1, hk4.2.2.1, hk4.2.2.2,
            MDir.outSub "njoyinp", by simp [rest_items_n]⟩
  · refine hfin (rest_items_pa inp) rfl rfl (rest_items_pa_ok inp hinp4.1) ?_
    intro f hf
    have hf2 : f ∈ step1_required "pa" fiss ures ∨ f = "tape30" ∨ f = "tape21"
        ∨ f = "tape29" ∨ f = inp := by
      simp only [mc_expected, String.reduceEq, if_false, List.mem_append,
        List.mem_cons, List.not_mem_nil, or_false, or_assoc, reduceIte] at hf
      exact hf
    rcases hf2 with h1 | rfl | rfl | rfl | rfl
    · exact Or.inl h1
    · exact Or.inr (Or.inl rfl)
    all_goals refine Or.inr (Or.inr ?_)
    · exact ⟨by decide, by decide, by decide,
        MDir.relaxDir, by simp [rest_items_pa]⟩
    · exact ⟨by decide, by decide, by decide,
        MDir.outSub "acedir", by simp [rest_items_pa]⟩
    · exact ⟨hinp4.2.1, hinp4.2.2.1, hinp4.2.2.2,
        MDir.outSub "njoyinp", by simp [rest_items_pa]⟩
  · refine hfin (rest_items_pn inp) rfl rfl (rest_items_pn_ok inp hinp4.1) ?_
    intro f hf
    have hf2 : f ∈ step1_required "pn" fiss ures ∨ f = "tape30" ∨ f = "tape22"
        ∨ f = "tape29" ∨ f = "tape34" ∨ f = inp := by
      simp only [mc_expected, String.reduceEq, if_false, List.mem_append,
        List.mem_cons, List.not_mem_nil, or_false, or_assoc, reduceIte] at hf
      exact hf
    rcases hf2 with h1 | rfl | rfl | rfl | rfl | rfl
    · exact Or.inl h1
    · exact Or.inr (Or.inl rfl)
    all_goals refine Or.inr (Or.inr ?_)
    · exact ⟨by decide, by decide, by decide,
        MDir.outSub "pendfdir_bin", by simp [rest_items_pn]⟩
    · exact ⟨by decide, by decide, by decide,
        MDir.outSub "acedir", by simp [rest_items_pn]⟩
    · exact ⟨by decide, by decide, by decide,
        MDir.outSub "viewacedir", by simp [rest_items_pn]⟩
    · exact ⟨hinp4.2.1, hinp4.2.2.1, hinp4.2.2.2,
        MDir.outSub "njoyinp", by simp [rest_items_pn]⟩


/-- Witness for the amended C4: on a concrete neutron job with every artifact
present except the ACE output `tape29` (an expected file of the move plan),
routing completes (no crash) and returns a cleared success flag. -/
theorem move_and_clean_best_effort_witness :
    ∃ fs1 succ,
      move_and_clean "n" "U-235_06" "U-235.jeff" "U-235_06.njoyinp"
        (some "U-235_06.njoyinpK") true false false sample_fs_missing_tape29
        = .ok (fs1, succ) ∧ succ = false := by
  obtain ⟨fs1, succ, hok, hmiss⟩ := move_and_clean_best_effort "n" "U-235_06"
    "U-235.jeff" "U-235_06.njoyinp" (some "U-235_06.njoyinpK") true false false
    sample_fs_missing_tape29 (Or.inl rfl) (by decide) (by decide) (by decide)
    (by intro k hk; injection hk with hh; subst hh; decide)
  exact ⟨fs1, succ, hok, hmiss "tape29" (by decide) (by decide)⟩

/-! ### Claim C5 -/

/-- Claim C5: for every job whose staged dataset `tape20` and raw execution
output are present in the working directory, after routing completes the
evaluation dataset exists under its canonical name inside the input library
directory (the `tape20` move targets the data directory, not the output
tree, and no later step deletes the moved file), regardless of whether the
job's success flag ends up true or false. -/
theorem move_and_clean_dataset_preserved (proj ASAIDT endfname inp : String)
    (inpK : Option String) (binary fiss ures : Bool) (fs0 : FSet)
    (hproj : proj = "n" ∨ proj = "pa" ∨ proj = "pn")
    (h20 : NPath.tmp "tape20" ∈ fs0)
    (hout : NPath.tmp "output" ∈ fs0)
    (hinp : inp ≠ "output")
    (hinpK : ∀ k, inpK = some k → k ≠ "output") :
    ∃ fs1 succ, move_and_clean proj ASAIDT endfname inp inpK binary fiss ures fs0
        = .ok (fs1, succ) ∧ NPath.data endfname ∈ fs1 := by
  have hfin : ∀ restItems : List (MDir × Option String),
      flatten_moves (dir_names proj inp inpK binary)
        = (MDir.dataDir, some "tape20") :: restItems →
      ext_name proj endfname inp inpK "tape20" = endfname →
      (∀ it ∈ restItems, ∀ n : String, it.2 = some n → n ≠ "output") →
      ∃ fs1 succ, move_and_clean proj ASAIDT endfname inp inpK binary fiss ures fs0
          = .ok (fs1, succ) ∧ NPath.data endfname ∈ fs1 := by
    intro restItems hflat hext hrest
    obtain ⟨fs1, succ, hok, hdata, _⟩ := move_and_clean_ok_aux proj ASAIDT endfname
      inp inpK binary fiss ures fs0 restItems hflat hext hrest h20 hout
    exact ⟨fs1, succ, hok, hdata⟩
  rcases hproj with h | h | h <;> subst h
  · cases binary
    · exact hfin (rest_items_n inp inpK "tape96" "tape67") rfl rfl
        (rest_items_n_ok inp inpK "tape96" "tape67" (by decide) (by decide) hinp hinpK)
    · exact hfin (rest_items_n inp inpK "tape26" "tape56") rfl rfl
        (rest_items_n_ok inp inpK "tape26" "tape56" (by decide) (by decide) hinp hinpK)
  · exact hfin (rest_items_pa inp) rfl rfl (rest_items_pa_ok inp hinp)
  · exact hfin (rest_items_pn inp) rfl rfl (rest_items_pn_ok inp hinp)

/-- Witness for C5: on a concrete neutron job (with the ACE output missing,
so the job even fails), the dataset still ends up at its canonical
input-library path. -/
theorem move_and_clean_dataset_preserved_witness :
    ∃ fs1 succ,
      move_and_clean "n" "U-235_06" "U-235.jeff" "U-235_06.njoyinp"
        (some "U-235_06.njoyinpK") true false false sample_fs_missing_tape29
        = .ok (fs1, succ) ∧ NPath.data "U-235.jeff" ∈ fs1 := by
  exact move_and_clean_dataset_preserved "n" "U-235_06" "U-235.jeff"
    "U-235_06.njoyinp" (some "U-235_06.njoyinpK") true false false
    sample_fs_missing_tape29 (Or.inl rfl) (by decide) (by decide) (by decide)
    (by intro k hk; injection hk with hh; subst hh; decide)

end NDL
